import Mathlib

/-!
Verification of the training script src/train.py of the Multimodal_22
repository.

The script is sequential glue code around an opaque deep-learning
framework.  We embed it shallowly: the opaque collaborators (the
`sc_Dataset`/`load_data` data layer, the `multimodal_AE` model, the loss
objects, `corr_score`, the `ReduceLROnPlateau` scheduler arithmetic and
`save_model`) are abstracted into an `Oracle` of uninterpreted value
functions, while every call the script makes into the framework is
recorded as an `Event` in a trace.  Tensor values are represented
symbolically by `TVal`; the model parameters after `k` optimizer steps
are identified by the version number `k` (the script performs exactly one
`optimizer.step()` per training batch, so the version always equals
`global_step`).  Python's failure modes that the script can trigger are
made explicit: a `NameError` when an unbound variable (`optimizer`,
`loss_fn_ae`, `loss`) is first used, an `AttributeError` when
`add_scalar` is invoked on a `None` logger, and a `ZeroDivisionError`
for `corr_sum / len(...)` on an empty split.  `print` formatting is
abstracted to an event carrying the raw numbers.
-/

/-- Parsed command-line arguments of src/train.py (the argparse record). -/
structure Args where
  data_dir : String
  log_dir : Option String
  loss_ae : String
  optimizer : String
  learning_rate : ℚ
  schedule_lr : Bool
  n_epochs : Nat
  batch_size : Nat
  verbose : Bool
  save : Bool
deriving DecidableEq, Repr

/-- Symbolic tensor values flowing through the loop: the i-th training or
validation sample's fields, and `pred v x` for the output of the model with
parameter version `v` (= number of optimizer steps taken) on input `x`. -/
inductive TVal where
  | xTrain (i : Nat)
  | yTrain (i : Nat)
  | xVal (i : Nat)
  | yVal (i : Nat)
  | pred (version : Nat) (x : TVal)
deriving DecidableEq, Repr

/-- Runtime errors the script can raise. -/
inductive PyErr where
  | nameError (v : String)
  | attributeError (v : String)
  | zeroDivisionError
deriving DecidableEq, Repr

/-- Observable calls the script makes into the framework, in program order. -/
inductive Event where
  | scDatasetInit (pathX pathY timeKey celltypeKey : String)
  | loadDataCall
  | modelInit (nInput nOutput : Nat)
  | adamInit (lr weightDecay : ℚ)
  | sgdInit (lr momentum weightDecay : ℚ)
  | schedulerInit (mode : String) (patience : Nat)
  | lossInit (name : String)
  | summaryWriterInit (path : String)
  | modelTrainMode
  | modelEvalMode
  | noGradEnter
  | noGradExit
  | zeroGrad
  | forward
  | lossEval (name : String) (a b : TVal)
  | addScalar (logger tag : String) (value : ℚ) (step : Nat)
  | corrCall (a b : TVal)
  | backward
  | optStep
  | schedStep (metric : ℚ)
  | printTrain (epoch step : Nat) (loss corr : ℚ)
  | printVal (epoch step : Nat) (corr : ℚ)
  | saveModelCall
deriving DecidableEq, Repr

/-- The numeric behaviour of the opaque collaborators: split sizes, model
shape, `loss.item()`, `corr_score`, and the current learning rate that the
opaque `ReduceLROnPlateau` state yields from the initial rate and the
history of metrics passed to `scheduler.step`. -/
structure Oracle where
  nTrain : Nat
  nVal : Nat
  nFeatureX : Nat
  nFeatureY : Nat
  lossItem : String → TVal → TVal → ℚ
  corr : TVal → TVal → ℚ
  lrOf : ℚ → List ℚ → ℚ

/-- Mutable state threaded through the script: the event trace so far,
`global_step`, the running `corr_sum`, the last value bound to the Python
variable `loss` (none while unbound), and the metric history handed to the
scheduler. -/
structure St where
  events : List Event
  gs : Nat
  corr_sum : ℚ
  lastLoss : Option ℚ
  schedHist : List ℚ
deriving DecidableEq, Repr

/-- Result of running a piece of the script: normal completion or a raised
error, in both cases with the state reached. -/
inductive Outcome where
  | ok (s : St)
  | err (e : PyErr) (s : St)
deriving DecidableEq, Repr

/-- Trace reached by an outcome, error or not. -/
def Outcome.evts : Outcome → List Event
  | .ok s => s.events
  | .err _ s => s.events

/-- Whether the outcome is a normal completion. -/
def Outcome.isOk : Outcome → Bool
  | .ok _ => true
  | .err _ _ => false

/-- Error raised by the outcome, if any. -/
def Outcome.errOf : Outcome → Option PyErr
  | .ok _ => none
  | .err e _ => some e

/-- Embedding of os.path.join for the cases the script exercises. -/
def osPathJoin (a b : String) : String :=
  if b.startsWith "/" then b
  else if a = "" then b
  else if a.endsWith "/" then a ++ b
  else a ++ "/" ++ b

/-- Which optimizer the if/elif chain at lines 29-32 binds: the branch
label, or none when `args.optimizer` matches neither branch and the
variable `optimizer` stays unbound. -/
def optSel (args : Args) : Option String :=
  if args.optimizer = "Adam" then some "Adam"
  else if args.optimizer = "SGD" then some "SGD"
  else none

/-- Which AE loss object the if/elif chain at lines 36-43 binds, or none
when `args.loss_ae` matches no branch and `loss_fn_ae` stays unbound. -/
def lossSel (args : Args) : Option String :=
  if args.loss_ae = "nb" then some "NBLoss"
  else if args.loss_ae = "gauss" then some "GaussianNLLLoss"
  else if args.loss_ae = "ncorr" then some "NCorrLoss"
  else if args.loss_ae = "mse" then some "MSELoss"
  else none

/-- One training batch, lines 54-64: unpack the sample, `optimizer.zero_grad()`
(raising NameError if `optimizer` is unbound), forward pass, loss evaluation
(NameError if `loss_fn_ae` is unbound), `train_logger.add_scalar` (AttributeError
when `log_dir` was not given so the logger is None), `corr_score` accumulation,
backward, `optimizer.step()`, `global_step += 1`. -/
def trainBatch (orc : Oracle) (args : Args) (i : Nat) (s : St) : Outcome :=
  match optSel args with
  | none => Outcome.err (PyErr.nameError "optimizer") s
  | some _ =>
    let pr := TVal.pred s.gs (TVal.xTrain i)
    let sA : St := { s with events := s.events ++ [Event.zeroGrad, Event.forward] }
    match lossSel args with
    | none => Outcome.err (PyErr.nameError "loss_fn_ae") sA
    | some ln =>
      let lv := orc.lossItem ln pr (TVal.yTrain i)
      let sB : St := { sA with
        events := sA.events ++ [Event.lossEval ln pr (TVal.yTrain i)],
        lastLoss := some lv }
      match args.log_dir with
      | none => Outcome.err (PyErr.attributeError "train_logger") sB
      | some _ =>
        Outcome.ok { sB with
          events := sB.events ++
            [Event.addScalar "train" "loss" lv s.gs,
             Event.corrCall (TVal.yTrain i) pr,
             Event.backward, Event.optStep],
          gs := s.gs + 1,
          corr_sum := sB.corr_sum + orc.corr (TVal.yTrain i) pr }

/-- The inner training loop `for sample in train_set`, over the remaining
batch indices. -/
def runBatches (orc : Oracle) (args : Args) : List Nat → St → Outcome
  | [], s => Outcome.ok s
  | i :: rest, s =>
    match trainBatch orc args i s with
    | Outcome.ok s' => runBatches orc args rest s'
    | Outcome.err e s' => Outcome.err e s'

/-- One validation batch, lines 73-78: forward pass and `corr_score`
accumulation only.  The model parameter version is `s.gs`, unchanged
throughout validation. -/
def valBatch (orc : Oracle) (i : Nat) (s : St) : St :=
  let pr := TVal.pred s.gs (TVal.xVal i)
  { s with
    events := s.events ++ [Event.forward, Event.corrCall (TVal.yVal i) pr],
    corr_sum := s.corr_sum + orc.corr (TVal.yVal i) pr }

/-- The validation loop `for sample in val_set`. -/
def runVal (orc : Oracle) : List Nat → St → St
  | [], s => s
  | i :: rest, s => runVal orc rest (valBatch orc i s)

/-- Lines 69-85: `model.eval()`, the `torch.no_grad()` block with the
validation loop, the valid-logger corr scalar, the optional verbose print,
then (outside the block) the `schedule_lr` branch logging `lr` and stepping
the scheduler on the validation mean. -/
def epochValPhase (orc : Oracle) (args : Args) (epoch : Nat) (s : St) : Outcome :=
  let s4 : St := { s with
    events := s.events ++ [Event.modelEvalMode, Event.noGradEnter],
    corr_sum := 0 }
  let s5 := runVal orc (List.range orc.nVal) s4
  match args.log_dir with
  | none => Outcome.err (PyErr.attributeError "valid_logger") s5
  | some _ =>
    if orc.nVal = 0 then Outcome.err PyErr.zeroDivisionError s5
    else
      let vc := s5.corr_sum / (orc.nVal : ℚ)
      let s6 : St := { s5 with events := s5.events ++ [Event.addScalar "valid" "corr" vc s5.gs] }
      let s7 : St := { s6 with events := s6.events ++
        (if args.verbose then [Event.printVal epoch s6.gs vc] else []) }
      let s8 : St := { s7 with events := s7.events ++ [Event.noGradExit] }
      if args.schedule_lr then
        match args.log_dir with
        | none => Outcome.err (PyErr.attributeError "train_logger") s8
        | some _ =>
          Outcome.ok { s8 with
            events := s8.events ++
              [Event.addScalar "train" "lr" (orc.lrOf args.learning_rate s8.schedHist) s8.gs,
               Event.schedStep vc],
            schedHist := s8.schedHist ++ [vc] }
      else Outcome.ok s8

/-- One iteration of `for epoch in range(args.n_epochs)`, lines 51-85:
`model.train()`, reset `corr_sum`, the training loop, the train-logger corr
scalar (AttributeError on a None logger, ZeroDivisionError on an empty
train split), the optional verbose print (NameError if the variable `loss`
was never bound), then the validation phase. -/
def runEpoch (orc : Oracle) (args : Args) (epoch : Nat) (s : St) : Outcome :=
  let s0 : St := { s with events := s.events ++ [Event.modelTrainMode], corr_sum := 0 }
  match runBatches orc args (List.range orc.nTrain) s0 with
  | Outcome.err e s' => Outcome.err e s'
  | Outcome.ok s1 =>
    match args.log_dir with
    | none => Outcome.err (PyErr.attributeError "train_logger") s1
    | some _ =>
      if orc.nTrain = 0 then Outcome.err PyErr.zeroDivisionError s1
      else
        let tc := s1.corr_sum / (orc.nTrain : ℚ)
        let s2 : St := { s1 with events := s1.events ++ [Event.addScalar "train" "corr" tc s1.gs] }
        if args.verbose then
          match s2.lastLoss with
          | none => Outcome.err (PyErr.nameError "loss") s2
          | some lv =>
            epochValPhase orc args epoch
              { s2 with events := s2.events ++ [Event.printTrain epoch s2.gs lv tc] }
        else epochValPhase orc args epoch s2

/-- The epoch loop over the remaining epoch indices. -/
def runEpochs (orc : Oracle) (args : Args) : List Nat → St → Outcome
  | [], s => Outcome.ok s
  | e :: rest, s =>
    match runEpoch orc args e s with
    | Outcome.ok s' => runEpochs orc args rest s'
    | Outcome.err x s' => Outcome.err x s'

/-- Lines 36-88 after scheduler creation: AE-loss selection, logger
creation, the epoch loop, and the final `save_model` call when `args.save`
is set. -/
def trainRest (orc : Oracle) (args : Args) (s : St) : Outcome :=
  let sL : St := { s with events := s.events ++
    (match lossSel args with
     | some ln => [Event.lossInit ln]
     | none => []) }
  let sW : St := { sL with events := sL.events ++
    (match args.log_dir with
     | some d => [Event.summaryWriterInit (osPathJoin d "train"),
                  Event.summaryWriterInit (osPathJoin d "valid")]
     | none => []) }
  match runEpochs orc args (List.range args.n_epochs) sW with
  | Outcome.err e s' => Outcome.err e s'
  | Outcome.ok s' =>
    Outcome.ok { s' with events := s'.events ++
      (if args.save then [Event.saveModelCall] else []) }

/-- The train function of src/train.py: dataset construction on the two
fixed file names joined onto `data_dir` with keys "day" and "cell_type",
`load_data` split, model construction, optimizer selection, scheduler
creation when `schedule_lr` is set (which raises NameError right there if
`optimizer` is unbound), then the rest of the script. -/
def train (orc : Oracle) (args : Args) : Outcome :=
  let s1 : St :=
    { events :=
        [Event.scDatasetInit (osPathJoin args.data_dir "cite_train_x.h5ad")
                             (osPathJoin args.data_dir "cite_train_y.h5ad")
                             "day" "cell_type",
         Event.loadDataCall,
         Event.modelInit orc.nFeatureX orc.nFeatureY],
      gs := 0, corr_sum := 0, lastLoss := none, schedHist := [] }
  let s2 : St := { s1 with events := s1.events ++
    (if args.optimizer = "Adam" then [Event.adamInit args.learning_rate (1/100000)]
     else if args.optimizer = "SGD" then [Event.sgdInit args.learning_rate (9/10) (1/2000)]
     else []) }
  if args.schedule_lr then
    match optSel args with
    | none => Outcome.err (PyErr.nameError "optimizer") s2
    | some _ => trainRest orc args { s2 with events := s2.events ++ [Event.schedulerInit "max" 5] }
  else trainRest orc args s2

/-- Model output on training sample `i` with parameter version `gs`. -/
def predT (gs i : Nat) : TVal := TVal.pred gs (TVal.xTrain i)

/-- Model output on validation sample `i` with parameter version `gs`. -/
def predV (gs i : Nat) : TVal := TVal.pred gs (TVal.xVal i)

/-- Events of one successful training batch `i` at global step `gs`, in
program order. -/
def batchEvents (orc : Oracle) (ln : String) (gs i : Nat) : List Event :=
  [Event.zeroGrad, Event.forward,
   Event.lossEval ln (predT gs i) (TVal.yTrain i),
   Event.addScalar "train" "loss" (orc.lossItem ln (predT gs i) (TVal.yTrain i)) gs,
   Event.corrCall (TVal.yTrain i) (predT gs i),
   Event.backward, Event.optStep]

/-- Events of a successful run of the training loop over the given batch
indices, starting at global step `gs`. -/
def batchesTrace (orc : Oracle) (ln : String) : List Nat → Nat → List Event
  | [], _ => []
  | i :: rest, gs => batchEvents orc ln gs i ++ batchesTrace orc ln rest (gs + 1)

/-- Value of `corr_sum` accumulated by the training loop over the given
batch indices, starting from 0 at global step `gs`: the sum of
`corr_score(Y_exp, pred_Y_exp)` over the batches. -/
def batchesCorr (orc : Oracle) : List Nat → Nat → ℚ
  | [], _ => 0
  | i :: rest, gs => orc.corr (TVal.yTrain i) (predT gs i) + batchesCorr orc rest (gs + 1)

/-- Value bound to the Python variable `loss` after the training loop:
the accumulator enters as `acc` and each batch overwrites it. -/
def batchesLast (orc : Oracle) (ln : String) : List Nat → Nat → Option ℚ → Option ℚ
  | [], _, acc => acc
  | i :: rest, gs, _ =>
      batchesLast orc ln rest (gs + 1)
        (some (orc.lossItem ln (predT gs i) (TVal.yTrain i)))

/-- Events of the validation loop over the given indices with parameter
version `gs`. -/
def valTrace (gs : Nat) : List Nat → List Event
  | [] => []
  | i :: rest => [Event.forward, Event.corrCall (TVal.yVal i) (predV gs i)] ++ valTrace gs rest

/-- Value of `corr_sum` accumulated by the validation loop from 0. -/
def valCorr (orc : Oracle) (gs : Nat) : List Nat → ℚ
  | [] => 0
  | i :: rest => orc.corr (TVal.yVal i) (predV gs i) + valCorr orc gs rest

/-- The mean validation correlation `corr_sum / len(val_set)` of the epoch
that starts at global step `gs`. -/
def epochVC (orc : Oracle) (gs : Nat) : ℚ :=
  valCorr orc (gs + orc.nTrain) (List.range orc.nVal) / (orc.nVal : ℚ)

/-- The mean training correlation `corr_sum / len(train_set)` of the epoch
that starts at global step `gs`. -/
def epochTC (orc : Oracle) (gs : Nat) : ℚ :=
  batchesCorr orc (List.range orc.nTrain) gs / (orc.nTrain : ℚ)

/-- Events of the validation phase of one epoch: `gs` is the global step
at validation time, `hist` the scheduler-metric history at entry. -/
def valPhaseTrace (orc : Oracle) (args : Args) (epoch gs : Nat) (hist : List ℚ) : List Event :=
  [Event.modelEvalMode, Event.noGradEnter]
  ++ valTrace gs (List.range orc.nVal)
  ++ [Event.addScalar "valid" "corr" (valCorr orc gs (List.range orc.nVal) / (orc.nVal : ℚ)) gs]
  ++ (if args.verbose then
        [Event.printVal epoch gs (valCorr orc gs (List.range orc.nVal) / (orc.nVal : ℚ))]
      else [])
  ++ [Event.noGradExit]
  ++ (if args.schedule_lr then
        [Event.addScalar "train" "lr" (orc.lrOf args.learning_rate hist) gs,
         Event.schedStep (valCorr orc gs (List.range orc.nVal) / (orc.nVal : ℚ))]
      else [])

/-- Events of one successful epoch `epoch` starting at global step `gs`
with scheduler-metric history `hist`. -/
def epochTraceAt (orc : Oracle) (args : Args) (ln : String) (epoch gs : Nat)
    (hist : List ℚ) : List Event :=
  [Event.modelTrainMode]
  ++ batchesTrace orc ln (List.range orc.nTrain) gs
  ++ [Event.addScalar "train" "corr" (epochTC orc gs) (gs + orc.nTrain)]
  ++ (if args.verbose then
        match batchesLast orc ln (List.range orc.nTrain) gs none with
        | some lv => [Event.printTrain epoch (gs + orc.nTrain) lv (epochTC orc gs)]
        | none => []
      else [])
  ++ valPhaseTrace orc args epoch (gs + orc.nTrain) hist

/-- Events of a successful run of the epoch loop over the given epoch
indices. -/
def epochsTrace (orc : Oracle) (args : Args) (ln : String) :
    List Nat → Nat → List ℚ → List Event
  | [], _, _ => []
  | e :: rest, gs, hist =>
    epochTraceAt orc args ln e gs hist
    ++ epochsTrace orc args ln rest (gs + orc.nTrain)
         (hist ++ (if args.schedule_lr then [epochVC orc gs] else []))

/-- Scheduler-metric history appended by the epoch loop over the given
epoch indices. -/
def epochsHist (orc : Oracle) (args : Args) : List Nat → Nat → List ℚ
  | [], _ => []
  | _ :: rest, gs =>
    (if args.schedule_lr then [epochVC orc gs] else [])
    ++ epochsHist orc args rest (gs + orc.nTrain)

/-- Events emitted before the epoch loop: dataset and split, model,
optimizer, optional scheduler, loss object, optional loggers. -/
def preludeTrace (orc : Oracle) (args : Args) : List Event :=
  [Event.scDatasetInit (osPathJoin args.data_dir "cite_train_x.h5ad")
                       (osPathJoin args.data_dir "cite_train_y.h5ad")
                       "day" "cell_type",
   Event.loadDataCall,
   Event.modelInit orc.nFeatureX orc.nFeatureY]
  ++ (if args.optimizer = "Adam" then [Event.adamInit args.learning_rate (1/100000)]
      else if args.optimizer = "SGD" then [Event.sgdInit args.learning_rate (9/10) (1/2000)]
      else [])
  ++ (if args.schedule_lr then [Event.schedulerInit "max" 5] else [])
  ++ (match lossSel args with
      | some ln => [Event.lossInit ln]
      | none => [])
  ++ (match args.log_dir with
      | some d => [Event.summaryWriterInit (osPathJoin d "train"),
                   Event.summaryWriterInit (osPathJoin d "valid")]
      | none => [])

/-- The full event trace of a successful run of train. -/
def fullTrace (orc : Oracle) (args : Args) (ln : String) : List Event :=
  preludeTrace orc args
  ++ epochsTrace orc args ln (List.range args.n_epochs) 0 []
  ++ (if args.save then [Event.saveModelCall] else [])

/-- Scalar-log events of a given logger and tag. -/
def isScalarTag (lg tg : String) (e : Event) : Bool :=
  match e with
  | Event.addScalar l t _ _ => l == lg && t == tg
  | _ => false

/-- Optimizer-construction events. -/
def isOptInit (e : Event) : Bool :=
  match e with
  | Event.adamInit _ _ => true
  | Event.sgdInit _ _ _ => true
  | _ => false

/-- Scheduler-construction events. -/
def isSchedInit (e : Event) : Bool :=
  match e with
  | Event.schedulerInit _ _ => true
  | _ => false

/-- Scheduler-step events. -/
def isSchedStep (e : Event) : Bool :=
  match e with
  | Event.schedStep _ => true
  | _ => false

/-- Loss-evaluation events. -/
def isLossEval (e : Event) : Bool :=
  match e with
  | Event.lossEval _ _ _ => true
  | _ => false

/-- Loss-construction events. -/
def isLossInit (e : Event) : Bool :=
  match e with
  | Event.lossInit _ => true
  | _ => false


/-- Loss applications of the shape the training loop produces: the loss
object named ln applied to (pred_Y_exp, Y_exp) of one training sample. -/
def isLossApp (ln : String) (e : Event) : Bool :=
  match e with
  | Event.lossEval n (TVal.pred _ (TVal.xTrain i)) (TVal.yTrain j) => n == ln && i == j
  | _ => false

/-- Two argument records that agree on every field except batch_size. -/
def AgreeNonBS (a b : Args) : Prop :=
  a.data_dir = b.data_dir ∧ a.log_dir = b.log_dir ∧ a.loss_ae = b.loss_ae ∧
  a.optimizer = b.optimizer ∧ a.learning_rate = b.learning_rate ∧
  a.schedule_lr = b.schedule_lr ∧ a.n_epochs = b.n_epochs ∧
  a.verbose = b.verbose ∧ a.save = b.save

/-- A small concrete oracle used to instantiate the theorems. -/
def orcW : Oracle :=
  { nTrain := 1, nVal := 1, nFeatureX := 4, nFeatureY := 3,
    lossItem := fun _ _ _ => 2, corr := fun _ _ => 1, lrOf := fun lr _ => lr }

/-- A concrete well-formed argument record used to instantiate the
theorems. -/
def argsW : Args :=
  { data_dir := "data", log_dir := some "logs", loss_ae := "mse",
    optimizer := "Adam", learning_rate := 1/1000, schedule_lr := true,
    n_epochs := 1, batch_size := 256, verbose := false, save := true }



/-- Adam-construction events. -/
def isAdamInit (e : Event) : Bool :=
  match e with
  | Event.adamInit _ _ => true
  | _ => false

/-- SGD-construction events. -/
def isSgdInit (e : Event) : Bool :=
  match e with
  | Event.sgdInit _ _ _ => true
  | _ => false

/-- The three events every run of train emits first: dataset construction
from the fixed file names with keys day and cell_type, the load_data
split, and model construction. -/
def baseTrace (orc : Oracle) (args : Args) : List Event :=
  [Event.scDatasetInit (osPathJoin args.data_dir "cite_train_x.h5ad")
                       (osPathJoin args.data_dir "cite_train_y.h5ad")
                       "day" "cell_type",
   Event.loadDataCall,
   Event.modelInit orc.nFeatureX orc.nFeatureY]

/-- The training loop succeeds when the optimizer and loss were bound and a
log directory was given, and its effect is described by the trace, step
count, corr accumulation and last-loss functions. -/
theorem runBatches_ok (orc : Oracle) (args : Args) (ln o d : String)
    (ho : optSel args = some o) (hls : lossSel args = some ln)
    (hld : args.log_dir = some d) :
    ∀ (is : List Nat) (s : St),
      runBatches orc args is s = Outcome.ok
        { events := s.events ++ batchesTrace orc ln is s.gs,
          gs := s.gs + is.length,
          corr_sum := s.corr_sum + batchesCorr orc is s.gs,
          lastLoss := batchesLast orc ln is s.gs s.lastLoss,
          schedHist := s.schedHist } := by
  intro is
  induction is with
  | nil =>
    intro s
    simp [runBatches, batchesTrace, batchesCorr, batchesLast]
  | cons i rest ih =>
    intro s
    simp only [runBatches, trainBatch, ho, hls, hld]
    rw [ih]
    simp only [Outcome.ok.injEq, St.mk.injEq]
    refine ⟨?_, ?_, ?_, ?_, trivial⟩
    · simp [batchesTrace, batchEvents, predT]
    · simp [List.length_cons]; omega
    · simp [batchesCorr, predT]; ring
    · simp [batchesLast, predT]

/-- The validation loop never fails; it only appends forward/corr events
and accumulates corr_sum, leaving every other state component unchanged. -/
theorem runVal_spec (orc : Oracle) :
    ∀ (is : List Nat) (s : St),
      runVal orc is s =
        { s with events := s.events ++ valTrace s.gs is,
                 corr_sum := s.corr_sum + valCorr orc s.gs is } := by
  intro is
  induction is with
  | nil =>
    intro s
    simp [runVal, valTrace, valCorr]
  | cons i rest ih =>
    intro s
    simp only [runVal, valBatch]
    rw [ih]
    simp [valTrace, valCorr, predV]
    ring

/-- The last bound loss value does not depend on the accumulator when at
least one batch runs. -/
theorem batchesLast_acc (orc : Oracle) (ln : String) (i : Nat) (rest : List Nat)
    (gs : Nat) (a b : Option ℚ) :
    batchesLast orc ln (i :: rest) gs a = batchesLast orc ln (i :: rest) gs b := rfl

/-- After a nonempty run of batches the Python variable loss is bound. -/
theorem batchesLast_isSome (orc : Oracle) (ln : String) :
    ∀ (is : List Nat) (gs : Nat) (a : Option ℚ), is ≠ [] →
      ∃ lv, batchesLast orc ln is gs a = some lv := by
  intro is
  induction is with
  | nil => intro gs a h; exact absurd rfl h
  | cons i rest ih =>
    intro gs a _
    cases rest with
    | nil => exact ⟨_, rfl⟩
    | cons j r2 =>
      exact ih (gs + 1) (some (orc.lossItem ln (predT gs i) (TVal.yTrain i))) (by simp)

/-- The validation phase of an epoch succeeds when a log directory was
given and the validation split is nonempty; it logs the mean validation
correlation, leaves global_step and lastLoss unchanged, and appends the
metric to the scheduler history exactly when schedule_lr is set. -/
theorem epochValPhase_ok (orc : Oracle) (args : Args) (d : String)
    (hld : args.log_dir = some d) (hv : 0 < orc.nVal) (epoch : Nat) (s : St) :
    epochValPhase orc args epoch s = Outcome.ok
      { events := s.events ++ valPhaseTrace orc args epoch s.gs s.schedHist,
        gs := s.gs,
        corr_sum := valCorr orc s.gs (List.range orc.nVal),
        lastLoss := s.lastLoss,
        schedHist := s.schedHist ++
          (if args.schedule_lr then
             [valCorr orc s.gs (List.range orc.nVal) / (orc.nVal : ℚ)]
           else []) } := by
  have hv' : ¬ orc.nVal = 0 := Nat.pos_iff_ne_zero.mp hv
  simp only [epochValPhase, hld]
  rw [runVal_spec]
  cases hsch : args.schedule_lr <;>
    simp [hv', hsch, valPhaseTrace, hld]

/-- On a nonempty index list (in particular List.range n with 0 < n) the
last bound loss value does not depend on the incoming accumulator. -/
theorem batchesLast_range_acc (orc : Oracle) (ln : String) (n gs : Nat) (a : Option ℚ)
    (h : 0 < n) :
    batchesLast orc ln (List.range n) gs a = batchesLast orc ln (List.range n) gs none := by
  cases n with
  | zero => exact absurd h (by simp)
  | succ m =>
    rw [List.range_succ_eq_map]
    exact batchesLast_acc orc ln 0 (List.map Nat.succ (List.range m)) gs a none

/-- One epoch succeeds under bound optimizer and loss, a given log
directory and nonempty splits, and produces exactly the epoch trace,
advancing global_step by the number of training batches. -/
theorem runEpoch_ok (orc : Oracle) (args : Args) (ln o d : String)
    (ho : optSel args = some o) (hls : lossSel args = some ln)
    (hld : args.log_dir = some d) (ht : 0 < orc.nTrain) (hv : 0 < orc.nVal)
    (epoch : Nat) (s : St) :
    runEpoch orc args epoch s = Outcome.ok
      { events := s.events ++ epochTraceAt orc args ln epoch s.gs s.schedHist,
        gs := s.gs + orc.nTrain,
        corr_sum := valCorr orc (s.gs + orc.nTrain) (List.range orc.nVal),
        lastLoss := batchesLast orc ln (List.range orc.nTrain) s.gs s.lastLoss,
        schedHist := s.schedHist ++ (if args.schedule_lr then [epochVC orc s.gs] else []) } := by
  have ht' : ¬ orc.nTrain = 0 := Nat.pos_iff_ne_zero.mp ht
  simp only [runEpoch]
  rw [runBatches_ok orc args ln o d ho hls hld]
  simp only [hld, ht', if_false]
  cases hvb : args.verbose
  · rw [epochValPhase_ok orc args d hld hv]
    simp [epochTraceAt, epochTC, epochVC, hvb, List.length_range]
  · obtain ⟨lv, hlv⟩ :=
      batchesLast_isSome orc ln (List.range orc.nTrain) s.gs none
        (by simp [List.range_eq_nil]; omega)
    have hacc := batchesLast_range_acc orc ln orc.nTrain s.gs s.lastLoss ht
    simp only [hacc, hlv]
    rw [epochValPhase_ok orc args d hld hv]
    simp [epochTraceAt, epochTC, epochVC, hvb, List.length_range, hlv, hacc]


/-- The epoch loop succeeds under the same conditions and its trace,
final global_step and scheduler history are given by the per-epoch
recursions. -/
theorem runEpochs_ok (orc : Oracle) (args : Args) (ln o d : String)
    (ho : optSel args = some o) (hls : lossSel args = some ln)
    (hld : args.log_dir = some d) (ht : 0 < orc.nTrain) (hv : 0 < orc.nVal) :
    ∀ (es : List Nat) (s : St), ∃ cs ll,
      runEpochs orc args es s = Outcome.ok
        { events := s.events ++ epochsTrace orc args ln es s.gs s.schedHist,
          gs := s.gs + es.length * orc.nTrain,
          corr_sum := cs, lastLoss := ll,
          schedHist := s.schedHist ++ epochsHist orc args es s.gs } := by
  intro es
  induction es with
  | nil =>
    intro s
    exact ⟨s.corr_sum, s.lastLoss, by simp [runEpochs, epochsTrace, epochsHist]⟩
  | cons e rest ih =>
    intro s
    simp only [runEpochs, runEpoch_ok orc args ln o d ho hls hld ht hv e s]
    obtain ⟨cs, ll, hrest⟩ := ih
      { events := s.events ++ epochTraceAt orc args ln e s.gs s.schedHist,
        gs := s.gs + orc.nTrain,
        corr_sum := valCorr orc (s.gs + orc.nTrain) (List.range orc.nVal),
        lastLoss := batchesLast orc ln (List.range orc.nTrain) s.gs s.lastLoss,
        schedHist := s.schedHist ++ (if args.schedule_lr then [epochVC orc s.gs] else []) }
    rw [hrest]
    simp [epochsTrace, epochsHist, List.length_cons, Nat.succ_mul,
      List.append_assoc, Nat.add_assoc, Nat.add_comm, Nat.add_left_comm]

/-- The tail of train (loss construction, logger construction, epoch loop,
optional save) from a state with fresh counters. -/
theorem trainRest_spec (orc : Oracle) (args : Args) (ln o d : String)
    (ho : optSel args = some o) (hls : lossSel args = some ln)
    (hld : args.log_dir = some d) (ht : 0 < orc.nTrain) (hv : 0 < orc.nVal)
    (s : St) (hgs : s.gs = 0) (hsh : s.schedHist = []) :
    ∃ cs ll, trainRest orc args s = Outcome.ok
      { events := s.events ++
          ([Event.lossInit ln,
            Event.summaryWriterInit (osPathJoin d "train"),
            Event.summaryWriterInit (osPathJoin d "valid")] ++
           epochsTrace orc args ln (List.range args.n_epochs) 0 [] ++
           (if args.save then [Event.saveModelCall] else [])),
        gs := args.n_epochs * orc.nTrain,
        corr_sum := cs, lastLoss := ll,
        schedHist := epochsHist orc args (List.range args.n_epochs) 0 } := by
  simp only [trainRest, hls, hld]
  obtain ⟨cs, ll, h⟩ := runEpochs_ok orc args ln o d ho hls hld ht hv
    (List.range args.n_epochs)
    { s with events := (s.events ++ [Event.lossInit ln]) ++
        [Event.summaryWriterInit (osPathJoin d "train"),
         Event.summaryWriterInit (osPathJoin d "valid")] }
  refine ⟨cs, ll, ?_⟩
  simp only [h]
  simp [hgs, hsh, List.length_range, List.append_assoc]

/-- Master lemma: when the optimizer flag is Adam or SGD, the loss flag is
one of the four accepted names, a log directory is given and both splits
are nonempty, train completes normally, its trace is exactly fullTrace,
and its final global_step is n_epochs times the number of training
batches. -/
theorem train_ok (orc : Oracle) (args : Args) (ln o d : String)
    (ho : optSel args = some o) (hls : lossSel args = some ln)
    (hld : args.log_dir = some d) (ht : 0 < orc.nTrain) (hv : 0 < orc.nVal) :
    ∃ cs ll, train orc args = Outcome.ok
      { events := fullTrace orc args ln,
        gs := args.n_epochs * orc.nTrain,
        corr_sum := cs, lastLoss := ll,
        schedHist := epochsHist orc args (List.range args.n_epochs) 0 } := by
  simp only [train]
  cases hsch : args.schedule_lr
  · obtain ⟨cs, ll, h⟩ := trainRest_spec orc args ln o d ho hls hld ht hv
      { events :=
          [Event.scDatasetInit (osPathJoin args.data_dir "cite_train_x.h5ad")
                               (osPathJoin args.data_dir "cite_train_y.h5ad")
                               "day" "cell_type",
           Event.loadDataCall,
           Event.modelInit orc.nFeatureX orc.nFeatureY] ++
          (if args.optimizer = "Adam" then [Event.adamInit args.learning_rate (1/100000)]
           else if args.optimizer = "SGD" then [Event.sgdInit args.learning_rate (9/10) (1/2000)]
           else []),
        gs := 0, corr_sum := 0, lastLoss := none, schedHist := [] } rfl rfl
    refine ⟨cs, ll, ?_⟩
    simp only [hsch, Bool.false_eq_true, if_false, h]
    simp [fullTrace, preludeTrace, hls, hld, hsch, List.append_assoc]
  · rw [ho]
    obtain ⟨cs, ll, h⟩ := trainRest_spec orc args ln o d ho hls hld ht hv
      { events :=
          ([Event.scDatasetInit (osPathJoin args.data_dir "cite_train_x.h5ad")
                                (osPathJoin args.data_dir "cite_train_y.h5ad")
                                "day" "cell_type",
            Event.loadDataCall,
            Event.modelInit orc.nFeatureX orc.nFeatureY] ++
           (if args.optimizer = "Adam" then [Event.adamInit args.learning_rate (1/100000)]
            else if args.optimizer = "SGD" then [Event.sgdInit args.learning_rate (9/10) (1/2000)]
            else [])) ++ [Event.schedulerInit "max" 5],
        gs := 0, corr_sum := 0, lastLoss := none, schedHist := [] } rfl rfl
    refine ⟨cs, ll, ?_⟩
    simp only [hsch, if_true, h]
    simp [fullTrace, preludeTrace, hls, hld, hsch, List.append_assoc]

/-- Counting events over the training loop: each batch contributes the
same number c of matches. -/
theorem countP_batchesTrace (orc : Oracle) (ln : String) (p : Event → Bool) (c : Nat)
    (hc : ∀ gs i, List.countP p (batchEvents orc ln gs i) = c) :
    ∀ (is : List Nat) (gs : Nat),
      List.countP p (batchesTrace orc ln is gs) = c * is.length := by
  intro is
  induction is with
  | nil => intro gs; simp [batchesTrace]
  | cons i rest ih =>
    intro gs
    simp [batchesTrace, List.countP_append, hc, ih, Nat.mul_succ, Nat.add_comm]

/-- Counting events over the validation loop. -/
theorem countP_valTrace (p : Event → Bool) (c : Nat)
    (hc : ∀ (gs i : Nat),
      List.countP p [Event.forward, Event.corrCall (TVal.yVal i) (predV gs i)] = c) :
    ∀ (is : List Nat) (gs : Nat),
      List.countP p (valTrace gs is) = c * is.length := by
  intro is
  induction is with
  | nil => intro gs; simp [valTrace]
  | cons i rest ih =>
    intro gs
    have h := hc gs i
    simp only [valTrace, List.countP_append, ih, h, List.length_cons]
    simp [Nat.mul_succ, Nat.add_comm]

/-- Counting events over the epoch loop: each epoch contributes the same
number c of matches. -/
theorem countP_epochsTrace (orc : Oracle) (args : Args) (ln : String)
    (p : Event → Bool) (c : Nat)
    (hc : ∀ (e gs : Nat) (hist : List ℚ),
      List.countP p (epochTraceAt orc args ln e gs hist) = c) :
    ∀ (es : List Nat) (gs : Nat) (hist : List ℚ),
      List.countP p (epochsTrace orc args ln es gs hist) = c * es.length := by
  intro es
  induction es with
  | nil => intro gs hist; simp [epochsTrace]
  | cons e rest ih =>
    intro gs hist
    simp [epochsTrace, List.countP_append, hc, ih, Nat.mul_succ, Nat.add_comm]

/-- One training batch under bound optimizer/loss and a given log
directory: its exact events (in source order), step increment, corr
accumulation and loss binding. -/
theorem trainBatch_ok (orc : Oracle) (args : Args) (ln o d : String)
    (ho : optSel args = some o) (hls : lossSel args = some ln)
    (hld : args.log_dir = some d) (i : Nat) (s : St) :
    trainBatch orc args i s = Outcome.ok
      { events := s.events ++ batchEvents orc ln s.gs i,
        gs := s.gs + 1,
        corr_sum := s.corr_sum + orc.corr (TVal.yTrain i) (predT s.gs i),
        lastLoss := some (orc.lossItem ln (predT s.gs i) (TVal.yTrain i)),
        schedHist := s.schedHist } := by
  simp only [trainBatch, ho, hls, hld]
  simp [batchEvents, predT]

/-- Counting events over the full trace from per-chunk counts. -/
theorem countP_fullTrace (orc : Oracle) (args : Args) (ln : String)
    (p : Event → Bool) (cPre cEp cSave : Nat)
    (hpre : List.countP p (preludeTrace orc args) = cPre)
    (hep : ∀ (e gs : Nat) (hist : List ℚ),
      List.countP p (epochTraceAt orc args ln e gs hist) = cEp)
    (hsave : List.countP p (if args.save then [Event.saveModelCall] else []) = cSave) :
    List.countP p (fullTrace orc args ln) = cPre + cEp * args.n_epochs + cSave := by
  simp [fullTrace, List.countP_append, hpre, hsave,
    countP_epochsTrace orc args ln p cEp hep, List.length_range, Nat.add_assoc]

/-- Per-epoch count of train/loss scalar logs: one per training batch. -/
theorem epochCount_loss (orc : Oracle) (args : Args) (ln : String)
    (e gs : Nat) (hist : List ℚ) :
    List.countP (isScalarTag "train" "loss") (epochTraceAt orc args ln e gs hist) =
      orc.nTrain := by
  have hbt := countP_batchesTrace orc ln (isScalarTag "train" "loss") 1
    (fun gs i => by simp [batchEvents, isScalarTag]) (List.range orc.nTrain) gs
  have hvt := countP_valTrace (isScalarTag "train" "loss") 0
    (fun gs i => by simp [isScalarTag]) (List.range orc.nVal) (gs + orc.nTrain)
  cases hbl : batchesLast orc ln (List.range orc.nTrain) gs none <;>
    cases hvb : args.verbose <;> cases hsc : args.schedule_lr <;>
      simp [epochTraceAt, valPhaseTrace, List.countP_append, hbt, hvt, isScalarTag,
        List.length_range, hbl, hvb, hsc]

/-- Per-epoch count of train/corr scalar logs: exactly one. -/
theorem epochCount_trainCorr (orc : Oracle) (args : Args) (ln : String)
    (e gs : Nat) (hist : List ℚ) :
    List.countP (isScalarTag "train" "corr") (epochTraceAt orc args ln e gs hist) = 1 := by
  have hbt := countP_batchesTrace orc ln (isScalarTag "train" "corr") 0
    (fun gs i => by simp [batchEvents, isScalarTag]) (List.range orc.nTrain) gs
  have hvt := countP_valTrace (isScalarTag "train" "corr") 0
    (fun gs i => by simp [isScalarTag]) (List.range orc.nVal) (gs + orc.nTrain)
  cases hbl : batchesLast orc ln (List.range orc.nTrain) gs none <;>
    cases hvb : args.verbose <;> cases hsc : args.schedule_lr <;>
      simp [epochTraceAt, valPhaseTrace, List.countP_append, hbt, hvt, isScalarTag,
        List.length_range, hbl, hvb, hsc]

/-- Per-epoch count of valid/corr scalar logs: exactly one. -/
theorem epochCount_validCorr (orc : Oracle) (args : Args) (ln : String)
    (e gs : Nat) (hist : List ℚ) :
    List.countP (isScalarTag "valid" "corr") (epochTraceAt orc args ln e gs hist) = 1 := by
  have hbt := countP_batchesTrace orc ln (isScalarTag "valid" "corr") 0
    (fun gs i => by simp [batchEvents, isScalarTag]) (List.range orc.nTrain) gs
  have hvt := countP_valTrace (isScalarTag "valid" "corr") 0
    (fun gs i => by simp [isScalarTag]) (List.range orc.nVal) (gs + orc.nTrain)
  cases hbl : batchesLast orc ln (List.range orc.nTrain) gs none <;>
    cases hvb : args.verbose <;> cases hsc : args.schedule_lr <;>
      simp [epochTraceAt, valPhaseTrace, List.countP_append, hbt, hvt, isScalarTag,
        List.length_range, hbl, hvb, hsc]

/-- Per-epoch count of train/lr scalar logs: one when schedule_lr is set,
none otherwise. -/
theorem epochCount_lr (orc : Oracle) (args : Args) (ln : String)
    (e gs : Nat) (hist : List ℚ) :
    List.countP (isScalarTag "train" "lr") (epochTraceAt orc args ln e gs hist) =
      (if args.schedule_lr then 1 else 0) := by
  have hbt := countP_batchesTrace orc ln (isScalarTag "train" "lr") 0
    (fun gs i => by simp [batchEvents, isScalarTag]) (List.range orc.nTrain) gs
  have hvt := countP_valTrace (isScalarTag "train" "lr") 0
    (fun gs i => by simp [isScalarTag]) (List.range orc.nVal) (gs + orc.nTrain)
  cases hbl : batchesLast orc ln (List.range orc.nTrain) gs none <;>
    cases hvb : args.verbose <;> cases hsc : args.schedule_lr <;>
      simp [epochTraceAt, valPhaseTrace, List.countP_append, hbt, hvt, isScalarTag,
        List.length_range, hbl, hvb, hsc]

/-- Per-epoch count of model.train() calls: exactly one. -/
theorem epochCount_trainMode (orc : Oracle) (args : Args) (ln : String)
    (e gs : Nat) (hist : List ℚ) :
    List.countP (fun ev => ev == Event.modelTrainMode)
      (epochTraceAt orc args ln e gs hist) = 1 := by
  have hbt := countP_batchesTrace orc ln (fun ev => ev == Event.modelTrainMode) 0
    (fun gs i => by simp [batchEvents]) (List.range orc.nTrain) gs
  have hvt := countP_valTrace (fun ev => ev == Event.modelTrainMode) 0
    (fun gs i => by simp) (List.range orc.nVal) (gs + orc.nTrain)
  cases hbl : batchesLast orc ln (List.range orc.nTrain) gs none <;>
    cases hvb : args.verbose <;> cases hsc : args.schedule_lr <;>
      simp [epochTraceAt, valPhaseTrace, List.countP_append, hbt, hvt,
        List.length_range, hbl, hvb, hsc]

/-- Per-epoch count of optimizer.zero_grad() calls: one per training batch. -/
theorem epochCount_zeroGrad (orc : Oracle) (args : Args) (ln : String)
    (e gs : Nat) (hist : List ℚ) :
    List.countP (fun ev => ev == Event.zeroGrad)
      (epochTraceAt orc args ln e gs hist) = orc.nTrain := by
  have hbt := countP_batchesTrace orc ln (fun ev => ev == Event.zeroGrad) 1
    (fun gs i => by simp [batchEvents]) (List.range orc.nTrain) gs
  have hvt := countP_valTrace (fun ev => ev == Event.zeroGrad) 0
    (fun gs i => by simp) (List.range orc.nVal) (gs + orc.nTrain)
  cases hbl : batchesLast orc ln (List.range orc.nTrain) gs none <;>
    cases hvb : args.verbose <;> cases hsc : args.schedule_lr <;>
      simp [epochTraceAt, valPhaseTrace, List.countP_append, hbt, hvt,
        List.length_range, hbl, hvb, hsc]

/-- Per-epoch count of loss.backward() calls: one per training batch. -/
theorem epochCount_backward (orc : Oracle) (args : Args) (ln : String)
    (e gs : Nat) (hist : List ℚ) :
    List.countP (fun ev => ev == Event.backward)
      (epochTraceAt orc args ln e gs hist) = orc.nTrain := by
  have hbt := countP_batchesTrace orc ln (fun ev => ev == Event.backward) 1
    (fun gs i => by simp [batchEvents]) (List.range orc.nTrain) gs
  have hvt := countP_valTrace (fun ev => ev == Event.backward) 0
    (fun gs i => by simp) (List.range orc.nVal) (gs + orc.nTrain)
  cases hbl : batchesLast orc ln (List.range orc.nTrain) gs none <;>
    cases hvb : args.verbose <;> cases hsc : args.schedule_lr <;>
      simp [epochTraceAt, valPhaseTrace, List.countP_append, hbt, hvt,
        List.length_range, hbl, hvb, hsc]

/-- Per-epoch count of optimizer.step() calls: one per training batch. -/
theorem epochCount_optStep (orc : Oracle) (args : Args) (ln : String)
    (e gs : Nat) (hist : List ℚ) :
    List.countP (fun ev => ev == Event.optStep)
      (epochTraceAt orc args ln e gs hist) = orc.nTrain := by
  have hbt := countP_batchesTrace orc ln (fun ev => ev == Event.optStep) 1
    (fun gs i => by simp [batchEvents]) (List.range orc.nTrain) gs
  have hvt := countP_valTrace (fun ev => ev == Event.optStep) 0
    (fun gs i => by simp) (List.range orc.nVal) (gs + orc.nTrain)
  cases hbl : batchesLast orc ln (List.range orc.nTrain) gs none <;>
    cases hvb : args.verbose <;> cases hsc : args.schedule_lr <;>
      simp [epochTraceAt, valPhaseTrace, List.countP_append, hbt, hvt,
        List.length_range, hbl, hvb, hsc]

/-- Per-epoch count of forward passes: one per training batch and one per
validation batch. -/
theorem epochCount_forward (orc : Oracle) (args : Args) (ln : String)
    (e gs : Nat) (hist : List ℚ) :
    List.countP (fun ev => ev == Event.forward)
      (epochTraceAt orc args ln e gs hist) = orc.nTrain + orc.nVal := by
  have hbt := countP_batchesTrace orc ln (fun ev => ev == Event.forward) 1
    (fun gs i => by simp [batchEvents]) (List.range orc.nTrain) gs
  have hvt := countP_valTrace (fun ev => ev == Event.forward) 1
    (fun gs i => by simp) (List.range orc.nVal) (gs + orc.nTrain)
  cases hbl : batchesLast orc ln (List.range orc.nTrain) gs none <;>
    cases hvb : args.verbose <;> cases hsc : args.schedule_lr <;>
      simp [epochTraceAt, valPhaseTrace, List.countP_append, hbt, hvt,
        List.length_range, hbl, hvb, hsc]

/-- Per-epoch count of scheduler.step calls: one when schedule_lr is set,
none otherwise. -/
theorem epochCount_schedStep (orc : Oracle) (args : Args) (ln : String)
    (e gs : Nat) (hist : List ℚ) :
    List.countP isSchedStep (epochTraceAt orc args ln e gs hist) =
      (if args.schedule_lr then 1 else 0) := by
  have hbt := countP_batchesTrace orc ln isSchedStep 0
    (fun gs i => by simp [batchEvents, isSchedStep]) (List.range orc.nTrain) gs
  have hvt := countP_valTrace isSchedStep 0
    (fun gs i => by simp [isSchedStep]) (List.range orc.nVal) (gs + orc.nTrain)
  cases hbl : batchesLast orc ln (List.range orc.nTrain) gs none <;>
    cases hvb : args.verbose <;> cases hsc : args.schedule_lr <;>
      simp [epochTraceAt, valPhaseTrace, List.countP_append, hbt, hvt, isSchedStep,
        List.length_range, hbl, hvb, hsc]

/-- Per-epoch count of scheduler constructions: none. -/
theorem epochCount_schedInit (orc : Oracle) (args : Args) (ln : String)
    (e gs : Nat) (hist : List ℚ) :
    List.countP isSchedInit (epochTraceAt orc args ln e gs hist) = 0 := by
  have hbt := countP_batchesTrace orc ln isSchedInit 0
    (fun gs i => by simp [batchEvents, isSchedInit]) (List.range orc.nTrain) gs
  have hvt := countP_valTrace isSchedInit 0
    (fun gs i => by simp [isSchedInit]) (List.range orc.nVal) (gs + orc.nTrain)
  cases hbl : batchesLast orc ln (List.range orc.nTrain) gs none <;>
    cases hvb : args.verbose <;> cases hsc : args.schedule_lr <;>
      simp [epochTraceAt, valPhaseTrace, List.countP_append, hbt, hvt, isSchedInit,
        List.length_range, hbl, hvb, hsc]

/-- Per-epoch count of optimizer constructions: none. -/
theorem epochCount_optInit (orc : Oracle) (args : Args) (ln : String)
    (e gs : Nat) (hist : List ℚ) :
    List.countP isOptInit (epochTraceAt orc args ln e gs hist) = 0 := by
  have hbt := countP_batchesTrace orc ln isOptInit 0
    (fun gs i => by simp [batchEvents, isOptInit]) (List.range orc.nTrain) gs
  have hvt := countP_valTrace isOptInit 0
    (fun gs i => by simp [isOptInit]) (List.range orc.nVal) (gs + orc.nTrain)
  cases hbl : batchesLast orc ln (List.range orc.nTrain) gs none <;>
    cases hvb : args.verbose <;> cases hsc : args.schedule_lr <;>
      simp [epochTraceAt, valPhaseTrace, List.countP_append, hbt, hvt, isOptInit,
        List.length_range, hbl, hvb, hsc]

/-- Per-epoch count of loss-object constructions: none. -/
theorem epochCount_lossInit (orc : Oracle) (args : Args) (ln : String)
    (e gs : Nat) (hist : List ℚ) :
    List.countP isLossInit (epochTraceAt orc args ln e gs hist) = 0 := by
  have hbt := countP_batchesTrace orc ln isLossInit 0
    (fun gs i => by simp [batchEvents, isLossInit]) (List.range orc.nTrain) gs
  have hvt := countP_valTrace isLossInit 0
    (fun gs i => by simp [isLossInit]) (List.range orc.nVal) (gs + orc.nTrain)
  cases hbl : batchesLast orc ln (List.range orc.nTrain) gs none <;>
    cases hvb : args.verbose <;> cases hsc : args.schedule_lr <;>
      simp [epochTraceAt, valPhaseTrace, List.countP_append, hbt, hvt, isLossInit,
        List.length_range, hbl, hvb, hsc]

/-- Per-epoch count of save_model calls: none. -/
theorem epochCount_save (orc : Oracle) (args : Args) (ln : String)
    (e gs : Nat) (hist : List ℚ) :
    List.countP (fun ev => ev == Event.saveModelCall)
      (epochTraceAt orc args ln e gs hist) = 0 := by
  have hbt := countP_batchesTrace orc ln (fun ev => ev == Event.saveModelCall) 0
    (fun gs i => by simp [batchEvents]) (List.range orc.nTrain) gs
  have hvt := countP_valTrace (fun ev => ev == Event.saveModelCall) 0
    (fun gs i => by simp) (List.range orc.nVal) (gs + orc.nTrain)
  cases hbl : batchesLast orc ln (List.range orc.nTrain) gs none <;>
    cases hvb : args.verbose <;> cases hsc : args.schedule_lr <;>
      simp [epochTraceAt, valPhaseTrace, List.countP_append, hbt, hvt,
        List.length_range, hbl, hvb, hsc]

/-- Per-epoch count of loss evaluations: one per training batch. -/
theorem epochCount_lossEval (orc : Oracle) (args : Args) (ln : String)
    (e gs : Nat) (hist : List ℚ) :
    List.countP isLossEval (epochTraceAt orc args ln e gs hist) = orc.nTrain := by
  have hbt := countP_batchesTrace orc ln isLossEval 1
    (fun gs i => by simp [batchEvents, isLossEval]) (List.range orc.nTrain) gs
  have hvt := countP_valTrace isLossEval 0
    (fun gs i => by simp [isLossEval]) (List.range orc.nVal) (gs + orc.nTrain)
  cases hbl : batchesLast orc ln (List.range orc.nTrain) gs none <;>
    cases hvb : args.verbose <;> cases hsc : args.schedule_lr <;>
      simp [epochTraceAt, valPhaseTrace, List.countP_append, hbt, hvt, isLossEval,
        List.length_range, hbl, hvb, hsc]

/-- Per-epoch count of well-shaped applications of the selected loss to
(pred_Y_exp, Y_exp): one per training batch. -/
theorem epochCount_lossApp (orc : Oracle) (args : Args) (ln : String)
    (e gs : Nat) (hist : List ℚ) :
    List.countP (isLossApp ln) (epochTraceAt orc args ln e gs hist) = orc.nTrain := by
  have hbt := countP_batchesTrace orc ln (isLossApp ln) 1
    (fun gs i => by simp [batchEvents, isLossApp, predT]) (List.range orc.nTrain) gs
  have hvt := countP_valTrace (isLossApp ln) 0
    (fun gs i => by simp [isLossApp, predV]) (List.range orc.nVal) (gs + orc.nTrain)
  cases hbl : batchesLast orc ln (List.range orc.nTrain) gs none <;>
    cases hvb : args.verbose <;> cases hsc : args.schedule_lr <;>
      simp [epochTraceAt, valPhaseTrace, List.countP_append, hbt, hvt, isLossApp,
        List.length_range, hbl, hvb, hsc]

/-- An unmatched optimizer flag means neither branch string. -/
theorem optSel_none_facts (args : Args) (h : optSel args = none) :
    args.optimizer ≠ "Adam" ∧ args.optimizer ≠ "SGD" := by
  constructor <;> intro hx <;> simp [optSel, hx] at h

/-- A matched optimizer flag is one of the two branch strings. -/
theorem optSel_some_facts (args : Args) (o : String) (h : optSel args = some o) :
    args.optimizer = "Adam" ∨ args.optimizer = "SGD" := by
  by_cases h1 : args.optimizer = "Adam"
  · exact Or.inl h1
  · by_cases h2 : args.optimizer = "SGD"
    · exact Or.inr h2
    · simp [optSel, h1, h2] at h

/-- A training batch only appends to the trace, whether it fails or not. -/
theorem evts_trainBatch (orc : Oracle) (args : Args) (i : Nat) (s : St) :
    ∃ t, (trainBatch orc args i s).evts = s.events ++ t := by
  cases h1 : optSel args with
  | none => exact ⟨[], by simp [trainBatch, h1, Outcome.evts]⟩
  | some o =>
    cases h2 : lossSel args with
    | none =>
      exact ⟨[Event.zeroGrad, Event.forward], by simp [trainBatch, h1, h2, Outcome.evts]⟩
    | some ln =>
      cases h3 : args.log_dir with
      | none =>
        exact ⟨[Event.zeroGrad, Event.forward,
                Event.lossEval ln (TVal.pred s.gs (TVal.xTrain i)) (TVal.yTrain i)],
               by simp [trainBatch, h1, h2, h3, Outcome.evts]⟩
      | some d =>
        exact ⟨batchEvents orc ln s.gs i,
               by rw [trainBatch_ok orc args ln o d h1 h2 h3 i s]; simp [Outcome.evts]⟩

/-- The training loop only appends to the trace. -/
theorem evts_runBatches (orc : Oracle) (args : Args) :
    ∀ (is : List Nat) (s : St), ∃ t, (runBatches orc args is s).evts = s.events ++ t := by
  intro is
  induction is with
  | nil => intro s; exact ⟨[], by simp [runBatches, Outcome.evts]⟩
  | cons i rest ih =>
    intro s
    obtain ⟨tb, htb⟩ := evts_trainBatch orc args i s
    cases hb : trainBatch orc args i s with
    | ok s' =>
      obtain ⟨tr, htr⟩ := ih s'
      rw [hb] at htb
      simp only [Outcome.evts] at htb
      exact ⟨tb ++ tr, by simp [runBatches, hb, htr, htb, List.append_assoc]⟩
    | err x s' =>
      rw [hb] at htb
      simp only [Outcome.evts] at htb
      exact ⟨tb, by simp [runBatches, hb, Outcome.evts, htb]⟩

/-- The validation phase only appends to the trace, whether it fails or
not. -/
theorem evts_epochValPhase (orc : Oracle) (args : Args) (e : Nat) (s : St) :
    ∃ t, (epochValPhase orc args e s).evts = s.events ++ t := by
  cases h1 : args.log_dir with
  | none =>
    exact ⟨[Event.modelEvalMode, Event.noGradEnter] ++ valTrace s.gs (List.range orc.nVal),
      by simp [epochValPhase, h1, runVal_spec, Outcome.evts, List.append_assoc]⟩
  | some d =>
    by_cases h2 : orc.nVal = 0
    · exact ⟨[Event.modelEvalMode, Event.noGradEnter] ++ valTrace s.gs (List.range orc.nVal),
        by simp [epochValPhase, h1, h2, runVal_spec, Outcome.evts, List.append_assoc]⟩
    · rw [epochValPhase_ok orc args d h1 (Nat.pos_of_ne_zero h2) e s]
      exact ⟨valPhaseTrace orc args e s.gs s.schedHist, by simp [Outcome.evts]⟩

/-- One epoch only appends to the trace, whether it fails or not. -/
theorem evts_runEpoch (orc : Oracle) (args : Args) (e : Nat) (s : St) :
    ∃ t, (runEpoch orc args e s).evts = s.events ++ t := by
  simp only [runEpoch]
  obtain ⟨t0, ht0⟩ := evts_runBatches orc args (List.range orc.nTrain)
    { s with events := s.events ++ [Event.modelTrainMode], corr_sum := 0 }
  cases hb : runBatches orc args (List.range orc.nTrain)
      { s with events := s.events ++ [Event.modelTrainMode], corr_sum := 0 } with
  | err x s' =>
    rw [hb] at ht0
    simp only [Outcome.evts] at ht0
    exact ⟨[Event.modelTrainMode] ++ t0, by simp [Outcome.evts, ht0, List.append_assoc]⟩
  | ok s1 =>
    rw [hb] at ht0
    simp only [Outcome.evts] at ht0
    cases h1 : args.log_dir with
    | none =>
      exact ⟨[Event.modelTrainMode] ++ t0, by simp [Outcome.evts, ht0, List.append_assoc]⟩
    | some d =>
      by_cases h2 : orc.nTrain = 0
      · exact ⟨[Event.modelTrainMode] ++ t0,
          by simp [h2, Outcome.evts, ht0, List.append_assoc]⟩
      · simp only [h2, if_false]
        cases hvb : args.verbose with
        | false =>
          obtain ⟨tv, htv⟩ := evts_epochValPhase orc args e
            { s1 with events := s1.events ++
                [Event.addScalar "train" "corr" (s1.corr_sum / (orc.nTrain : ℚ)) s1.gs] }
          refine ⟨[Event.modelTrainMode] ++ t0 ++
            [Event.addScalar "train" "corr" (s1.corr_sum / (orc.nTrain : ℚ)) s1.gs] ++ tv, ?_⟩
          simp only [Bool.false_eq_true, if_false] at htv ⊢
          rw [htv, ht0]
          simp [List.append_assoc]
        | true =>
          cases hll : s1.lastLoss with
          | none =>
            refine ⟨[Event.modelTrainMode] ++ t0 ++
              [Event.addScalar "train" "corr" (s1.corr_sum / (orc.nTrain : ℚ)) s1.gs], ?_⟩
            simp [hll, Outcome.evts, ht0, List.append_assoc]
          | some lv =>
            obtain ⟨tv, htv⟩ := evts_epochValPhase orc args e
              { s1 with events := s1.events ++
                  [Event.addScalar "train" "corr" (s1.corr_sum / (orc.nTrain : ℚ)) s1.gs] ++
                  [Event.printTrain e s1.gs lv (s1.corr_sum / (orc.nTrain : ℚ))] }
            refine ⟨[Event.modelTrainMode] ++ t0 ++
              [Event.addScalar "train" "corr" (s1.corr_sum / (orc.nTrain : ℚ)) s1.gs] ++
              [Event.printTrain e s1.gs lv (s1.corr_sum / (orc.nTrain : ℚ))] ++ tv, ?_⟩
            simp only [hll, if_true] at htv ⊢
            simp only [Outcome.evts] at htv ⊢
            rw [htv, ht0]
            simp [List.append_assoc]

/-- The epoch loop only appends to the trace, whether it fails or not. -/
theorem evts_runEpochs (orc : Oracle) (args : Args) :
    ∀ (es : List Nat) (s : St), ∃ t, (runEpochs orc args es s).evts = s.events ++ t := by
  intro es
  induction es with
  | nil => intro s; exact ⟨[], by simp [runEpochs, Outcome.evts]⟩
  | cons e rest ih =>
    intro s
    obtain ⟨te, hte⟩ := evts_runEpoch orc args e s
    cases hb : runEpoch orc args e s with
    | ok s' =>
      obtain ⟨tr, htr⟩ := ih s'
      rw [hb] at hte
      simp only [Outcome.evts] at hte
      exact ⟨te ++ tr, by simp [runEpochs, hb, htr, hte, List.append_assoc]⟩
    | err x s' =>
      rw [hb] at hte
      simp only [Outcome.evts] at hte
      exact ⟨te, by simp [runEpochs, hb, Outcome.evts, hte]⟩

/-- The tail of train only appends to the trace. -/
theorem evts_trainRest (orc : Oracle) (args : Args) (s : St) :
    ∃ t, (trainRest orc args s).evts = s.events ++ t := by
  simp only [trainRest]
  obtain ⟨te, hte⟩ := evts_runEpochs orc args (List.range args.n_epochs)
    { s with events := (s.events ++
        (match lossSel args with | some ln => [Event.lossInit ln] | none => [])) ++
        (match args.log_dir with
         | some d => [Event.summaryWriterInit (osPathJoin d "train"),
                      Event.summaryWriterInit (osPathJoin d "valid")]
         | none => []) }
  cases hb : runEpochs orc args (List.range args.n_epochs)
      { s with events := (s.events ++
          (match lossSel args with | some ln => [Event.lossInit ln] | none => [])) ++
          (match args.log_dir with
           | some d => [Event.summaryWriterInit (osPathJoin d "train"),
                        Event.summaryWriterInit (osPathJoin d "valid")]
           | none => []) } with
  | ok s' =>
    rw [hb] at hte
    simp only [Outcome.evts] at hte
    refine ⟨(match lossSel args with | some ln => [Event.lossInit ln] | none => []) ++
      (match args.log_dir with
       | some d => [Event.summaryWriterInit (osPathJoin d "train"),
                    Event.summaryWriterInit (osPathJoin d "valid")]
       | none => []) ++ te ++ (if args.save then [Event.saveModelCall] else []), ?_⟩
    simp [Outcome.evts, hte, List.append_assoc]
  | err x s' =>
    rw [hb] at hte
    simp only [Outcome.evts] at hte
    refine ⟨(match lossSel args with | some ln => [Event.lossInit ln] | none => []) ++
      (match args.log_dir with
       | some d => [Event.summaryWriterInit (osPathJoin d "train"),
                    Event.summaryWriterInit (osPathJoin d "valid")]
       | none => []) ++ te, ?_⟩
    simp [Outcome.evts, hte, List.append_assoc]

/-- Whatever the flags and however far it gets, train first constructs the
dataset from the two fixed file names, splits it, and builds the model,
before anything else happens. -/
theorem evts_train (orc : Oracle) (args : Args) :
    ∃ t, (train orc args).evts =
      [Event.scDatasetInit (osPathJoin args.data_dir "cite_train_x.h5ad")
                           (osPathJoin args.data_dir "cite_train_y.h5ad")
                           "day" "cell_type",
       Event.loadDataCall,
       Event.modelInit orc.nFeatureX orc.nFeatureY] ++ t := by
  simp only [train]
  cases hsch : args.schedule_lr with
  | false =>
    obtain ⟨t, ht⟩ := evts_trainRest orc args
      { events :=
          [Event.scDatasetInit (osPathJoin args.data_dir "cite_train_x.h5ad")
                               (osPathJoin args.data_dir "cite_train_y.h5ad")
                               "day" "cell_type",
           Event.loadDataCall,
           Event.modelInit orc.nFeatureX orc.nFeatureY] ++
          (if args.optimizer = "Adam" then [Event.adamInit args.learning_rate (1/100000)]
           else if args.optimizer = "SGD" then [Event.sgdInit args.learning_rate (9/10) (1/2000)]
           else []),
        gs := 0, corr_sum := 0, lastLoss := none, schedHist := [] }
    refine ⟨(if args.optimizer = "Adam" then [Event.adamInit args.learning_rate (1/100000)]
             else if args.optimizer = "SGD" then [Event.sgdInit args.learning_rate (9/10) (1/2000)]
             else []) ++ t, ?_⟩
    simp only [Bool.false_eq_true, if_false]
    rw [ht]
    simp [List.append_assoc]
  | true =>
    cases ho : optSel args with
    | none =>
      refine ⟨(if args.optimizer = "Adam" then [Event.adamInit args.learning_rate (1/100000)]
               else if args.optimizer = "SGD" then [Event.sgdInit args.learning_rate (9/10) (1/2000)]
               else []), ?_⟩
      simp [ho, Outcome.evts]
    | some o =>
      obtain ⟨t, ht⟩ := evts_trainRest orc args
        { events :=
            ([Event.scDatasetInit (osPathJoin args.data_dir "cite_train_x.h5ad")
                                  (osPathJoin args.data_dir "cite_train_y.h5ad")
                                  "day" "cell_type",
              Event.loadDataCall,
              Event.modelInit orc.nFeatureX orc.nFeatureY] ++
             (if args.optimizer = "Adam" then [Event.adamInit args.learning_rate (1/100000)]
              else if args.optimizer = "SGD" then [Event.sgdInit args.learning_rate (9/10) (1/2000)]
              else [])) ++ [Event.schedulerInit "max" 5],
          gs := 0, corr_sum := 0, lastLoss := none, schedHist := [] }
      refine ⟨(if args.optimizer = "Adam" then [Event.adamInit args.learning_rate (1/100000)]
               else if args.optimizer = "SGD" then [Event.sgdInit args.learning_rate (9/10) (1/2000)]
               else []) ++ [Event.schedulerInit "max" 5] ++ t, ?_⟩
      simp only [if_true, ho]
      rw [ht]
      simp [List.append_assoc]

/-- With an unmatched optimizer flag and schedule_lr set, the NameError
for the unbound variable optimizer is raised at scheduler construction,
before the training loop ever starts. -/
theorem train_err_opt_sched (orc : Oracle) (args : Args)
    (hopt : optSel args = none) (hsch : args.schedule_lr = true) :
    ∃ s, train orc args = Outcome.err (PyErr.nameError "optimizer") s ∧
      Event.modelTrainMode ∉ s.events ∧ Event.zeroGrad ∉ s.events := by
  obtain ⟨hA, hS⟩ := optSel_none_facts args hopt
  refine ⟨{ events := baseTrace orc args, gs := 0, corr_sum := 0,
            lastLoss := none, schedHist := [] }, ?_, ?_, ?_⟩
  · simp [train, hsch, hopt, hA, hS, baseTrace]
  · simp [baseTrace]
  · simp [baseTrace]

/-- With an unmatched optimizer flag and schedule_lr unset, the NameError
for the unbound variable optimizer is raised at the zero_grad call of the
first training iteration: the trace ends right after model.train() and
contains no zeroGrad event. -/
theorem train_err_opt_nosched (orc : Oracle) (args : Args)
    (hopt : optSel args = none) (hsch : args.schedule_lr = false)
    (hne : 0 < args.n_epochs) (hnt : 0 < orc.nTrain) :
    ∃ s t, train orc args = Outcome.err (PyErr.nameError "optimizer") s ∧
      s.events = t ++ [Event.modelTrainMode] ∧ Event.zeroGrad ∉ s.events := by
  obtain ⟨hA, hS⟩ := optSel_none_facts args hopt
  obtain ⟨m, hm⟩ : ∃ m, args.n_epochs = m + 1 := ⟨args.n_epochs - 1, by omega⟩
  obtain ⟨k, hk⟩ : ∃ k, orc.nTrain = k + 1 := ⟨orc.nTrain - 1, by omega⟩
  refine ⟨⟨(baseTrace orc args ++
      (match lossSel args with
       | some ln => [Event.lossInit ln]
       | none => []) ++
      (match args.log_dir with
       | some d => [Event.summaryWriterInit (osPathJoin d "train"),
                    Event.summaryWriterInit (osPathJoin d "valid")]
       | none => [])) ++ [Event.modelTrainMode], 0, 0, none, []⟩,
    baseTrace orc args ++
      (match lossSel args with
       | some ln => [Event.lossInit ln]
       | none => []) ++
      (match args.log_dir with
       | some d => [Event.summaryWriterInit (osPathJoin d "train"),
                    Event.summaryWriterInit (osPathJoin d "valid")]
       | none => []), ?_, rfl, ?_⟩
  · simp [train, trainRest, hsch, hopt, hA, hS, hm, hk, List.range_succ_eq_map,
      runEpochs, runEpoch, runBatches, trainBatch, baseTrace, List.append_assoc]
  · cases hl : lossSel args <;> cases hd : args.log_dir <;>
      simp [hl, hd, baseTrace]

/-- With a bound optimizer but an unmatched loss flag, the NameError for
the unbound variable loss_fn_ae is raised at the loss evaluation of the
first training iteration, after zero_grad and the forward pass of that
iteration; the loop was entered exactly once. -/
theorem train_err_loss_firstbatch (orc : Oracle) (args : Args) (o : String)
    (ho : optSel args = some o) (hloss : lossSel args = none)
    (hne : 0 < args.n_epochs) (hnt : 0 < orc.nTrain) :
    ∃ s t, train orc args = Outcome.err (PyErr.nameError "loss_fn_ae") s ∧
      s.events = t ++ [Event.modelTrainMode, Event.zeroGrad, Event.forward] ∧
      List.countP (fun ev => ev == Event.modelTrainMode) s.events = 1 := by
  obtain ⟨m, hm⟩ : ∃ m, args.n_epochs = m + 1 := ⟨args.n_epochs - 1, by omega⟩
  obtain ⟨k, hk⟩ : ∃ k, orc.nTrain = k + 1 := ⟨orc.nTrain - 1, by omega⟩
  refine ⟨⟨(baseTrace orc args ++
      (if args.optimizer = "Adam" then [Event.adamInit args.learning_rate (1/100000)]
       else if args.optimizer = "SGD" then [Event.sgdInit args.learning_rate (9/10) (1/2000)]
       else []) ++
      (if args.schedule_lr then [Event.schedulerInit "max" 5] else []) ++
      (match args.log_dir with
       | some d => [Event.summaryWriterInit (osPathJoin d "train"),
                    Event.summaryWriterInit (osPathJoin d "valid")]
       | none => [])) ++ [Event.modelTrainMode, Event.zeroGrad, Event.forward],
      0, 0, none, []⟩,
    baseTrace orc args ++
      (if args.optimizer = "Adam" then [Event.adamInit args.learning_rate (1/100000)]
       else if args.optimizer = "SGD" then [Event.sgdInit args.learning_rate (9/10) (1/2000)]
       else []) ++
      (if args.schedule_lr then [Event.schedulerInit "max" 5] else []) ++
      (match args.log_dir with
       | some d => [Event.summaryWriterInit (osPathJoin d "train"),
                    Event.summaryWriterInit (osPathJoin d "valid")]
       | none => []), ?_, rfl, ?_⟩
  · cases hsch : args.schedule_lr
    · simp [train, trainRest, hsch, ho, hloss, hm, hk, List.range_succ_eq_map,
        runEpochs, runEpoch, runBatches, trainBatch, baseTrace, List.append_assoc]
    · simp [train, trainRest, hsch, ho, hloss, hm, hk, List.range_succ_eq_map,
        runEpochs, runEpoch, runBatches, trainBatch, baseTrace, List.append_assoc]
  · cases hd : args.log_dir <;> split_ifs <;>
      simp [baseTrace, hd, List.countP_append]

/-- Claim C1, counterexample: with optimizer RMSProp and schedule_lr set,
the unbound-name failure does NOT surface inside the first training
iteration as the claim states: train fails with the NameError for
optimizer before the loop starts, with no model.train() and no zero_grad
event in the trace. -/
theorem claim_C1_counterexample :
    (train orcW { argsW with optimizer := "RMSProp" }).errOf =
      some (PyErr.nameError "optimizer") ∧
    Event.modelTrainMode ∉ (train orcW { argsW with optimizer := "RMSProp" }).evts ∧
    Event.zeroGrad ∉ (train orcW { argsW with optimizer := "RMSProp" }).evts := by
  decide

/-- Claim C1 (amended): an unmatched loss_ae or optimizer flag is not
rejected by any validation; the variable stays unbound and the failure is
a NameError at its first use.  For loss_fn_ae that first use is the loss
evaluation inside the first training iteration (after that iteration's
zero_grad and forward pass).  For optimizer the first use is scheduler
construction when schedule_lr is set, which fails before the loop even
starts; without schedule_lr it is the zero_grad call of the first
training iteration, which fails right after model.train() and before any
zeroGrad event. -/
theorem claim_C1_unbound_flag_failure (orc : Oracle) (args : Args) :
    (optSel args = none → args.schedule_lr = true →
      ∃ s, train orc args = Outcome.err (PyErr.nameError "optimizer") s ∧
        Event.modelTrainMode ∉ s.events ∧ Event.zeroGrad ∉ s.events) ∧
    (optSel args = none → args.schedule_lr = false →
      0 < args.n_epochs → 0 < orc.nTrain →
      ∃ s t, train orc args = Outcome.err (PyErr.nameError "optimizer") s ∧
        s.events = t ++ [Event.modelTrainMode] ∧ Event.zeroGrad ∉ s.events) ∧
    (∀ o, optSel args = some o → lossSel args = none →
      0 < args.n_epochs → 0 < orc.nTrain →
      ∃ s t, train orc args = Outcome.err (PyErr.nameError "loss_fn_ae") s ∧
        s.events = t ++ [Event.modelTrainMode, Event.zeroGrad, Event.forward] ∧
        List.countP (fun ev => ev == Event.modelTrainMode) s.events = 1) :=
  ⟨fun hopt hsch => train_err_opt_sched orc args hopt hsch,
   fun hopt hsch hne hnt => train_err_opt_nosched orc args hopt hsch hne hnt,
   fun o ho hloss hne hnt => train_err_loss_firstbatch orc args o ho hloss hne hnt⟩

/-- Witness for claim C1's amended theorem at concrete inputs: an
unmatched optimizer with and without schedule_lr, and an unmatched loss
flag. -/
theorem claim_C1_unbound_flag_failure_witness :
    (∃ s, train orcW { argsW with optimizer := "RMSProp" } =
        Outcome.err (PyErr.nameError "optimizer") s ∧
      Event.modelTrainMode ∉ s.events ∧ Event.zeroGrad ∉ s.events) ∧
    (∃ s t, train orcW { argsW with optimizer := "RMSProp", schedule_lr := false } =
        Outcome.err (PyErr.nameError "optimizer") s ∧
      s.events = t ++ [Event.modelTrainMode] ∧ Event.zeroGrad ∉ s.events) ∧
    (∃ s t, train orcW { argsW with loss_ae := "huber" } =
        Outcome.err (PyErr.nameError "loss_fn_ae") s ∧
      s.events = t ++ [Event.modelTrainMode, Event.zeroGrad, Event.forward] ∧
      List.countP (fun ev => ev == Event.modelTrainMode) s.events = 1) :=
  ⟨(claim_C1_unbound_flag_failure orcW { argsW with optimizer := "RMSProp" }).1
      (by decide) (by decide),
   (claim_C1_unbound_flag_failure orcW
      { argsW with optimizer := "RMSProp", schedule_lr := false }).2.1
      (by decide) (by decide) (by decide) (by decide),
   (claim_C1_unbound_flag_failure orcW { argsW with loss_ae := "huber" }).2.2
      "Adam" (by decide) (by decide) (by decide) (by decide)⟩

/-- Claim C2, counterexample: a run with a log directory but schedule_lr
unset completes normally yet writes no lr scalar at all, so lr is not
logged once per epoch on every run that writes logs. -/
theorem claim_C2_counterexample :
    (train orcW { argsW with schedule_lr := false }).isOk = true ∧
    ({ argsW with schedule_lr := false } : Args).log_dir = some "logs" ∧
    ({ argsW with schedule_lr := false } : Args).n_epochs = 1 ∧
    List.countP (isScalarTag "train" "lr")
      (train orcW { argsW with schedule_lr := false }).evts = 0 := by
  decide

/-- Claim C2 (amended): on a successful logging run, the train logger
receives a loss scalar once per training batch (logged at the then
current global_step, as the batch trace shows), each epoch logs a corr
scalar once to the train logger and once to the valid logger, and an lr
scalar is logged once per epoch to the train logger exactly when
schedule_lr is set; without schedule_lr no lr scalar is ever written. -/
theorem claim_C2_scalar_logs (orc : Oracle) (args : Args) (ln o d : String)
    (ho : optSel args = some o) (hls : lossSel args = some ln)
    (hld : args.log_dir = some d) (ht : 0 < orc.nTrain) (hv : 0 < orc.nVal) :
    ∃ s, train orc args = Outcome.ok s ∧
      List.countP (isScalarTag "train" "loss") s.events = args.n_epochs * orc.nTrain ∧
      List.countP (isScalarTag "train" "corr") s.events = args.n_epochs ∧
      List.countP (isScalarTag "valid" "corr") s.events = args.n_epochs ∧
      List.countP (isScalarTag "train" "lr") s.events =
        (if args.schedule_lr then args.n_epochs else 0) ∧
      (∀ (i : Nat) (s₀ : St), ∃ s₁, trainBatch orc args i s₀ = Outcome.ok s₁ ∧
        s₁.events = s₀.events ++ batchEvents orc ln s₀.gs i) := by
  obtain ⟨cs, ll, h⟩ := train_ok orc args ln o d ho hls hld ht hv
  refine ⟨_, h, ?_, ?_, ?_, ?_, ?_⟩
  · show List.countP _ (fullTrace orc args ln) = _
    rw [countP_fullTrace orc args ln _ 0 orc.nTrain 0 ?_ (epochCount_loss orc args ln) ?_]
    · ring
    · simp only [preludeTrace, hls, hld, List.countP_append]
      split_ifs <;> simp [isScalarTag]
    · cases hs : args.save <;> simp [isScalarTag]
  · show List.countP _ (fullTrace orc args ln) = _
    rw [countP_fullTrace orc args ln _ 0 1 0 ?_ (epochCount_trainCorr orc args ln) ?_]
    · ring
    · simp only [preludeTrace, hls, hld, List.countP_append]
      split_ifs <;> simp [isScalarTag]
    · cases hs : args.save <;> simp [isScalarTag]
  · show List.countP _ (fullTrace orc args ln) = _
    rw [countP_fullTrace orc args ln _ 0 1 0 ?_ (epochCount_validCorr orc args ln) ?_]
    · ring
    · simp only [preludeTrace, hls, hld, List.countP_append]
      split_ifs <;> simp [isScalarTag]
    · cases hs : args.save <;> simp [isScalarTag]
  · show List.countP _ (fullTrace orc args ln) = _
    rw [countP_fullTrace orc args ln _ 0 (if args.schedule_lr then 1 else 0) 0 ?_
        (epochCount_lr orc args ln) ?_]
    · cases hsc : args.schedule_lr <;> simp
    · simp only [preludeTrace, hls, hld, List.countP_append]
      split_ifs <;> simp [isScalarTag]
    · cases hs : args.save <;> simp [isScalarTag]
  · intro i s₀
    exact ⟨_, trainBatch_ok orc args ln o d ho hls hld i s₀, rfl⟩

/-- Witness for claim C2's amended theorem at a concrete input. -/
theorem claim_C2_scalar_logs_witness :
    ∃ s, train orcW argsW = Outcome.ok s ∧
      List.countP (isScalarTag "train" "loss") s.events =
        argsW.n_epochs * orcW.nTrain ∧
      List.countP (isScalarTag "train" "corr") s.events = argsW.n_epochs ∧
      List.countP (isScalarTag "valid" "corr") s.events = argsW.n_epochs ∧
      List.countP (isScalarTag "train" "lr") s.events =
        (if argsW.schedule_lr then argsW.n_epochs else 0) ∧
      (∀ (i : Nat) (s₀ : St), ∃ s₁, trainBatch orcW argsW i s₀ = Outcome.ok s₁ ∧
        s₁.events = s₀.events ++ batchEvents orcW "MSELoss" s₀.gs i) :=
  claim_C2_scalar_logs orcW argsW "MSELoss" "Adam" "logs"
    (by decide) (by decide) (by decide) (by decide) (by decide)

/-- Claim C5: train always constructs the dataset from the two fixed file
names joined onto data_dir, keyed by time_key day and celltype_key
cell_type, and splits it via load_data before the model or any optimizer
is constructed: whatever the flags and the oracle, the first three events
of every run are dataset construction with exactly those arguments, the
load_data call, and model construction, and no optimizer construction is
among them. -/
theorem claim_C5_dataset_first (orc : Oracle) (args : Args) :
    (train orc args).evts.take 3 =
      [Event.scDatasetInit (osPathJoin args.data_dir "cite_train_x.h5ad")
                           (osPathJoin args.data_dir "cite_train_y.h5ad")
                           "day" "cell_type",
       Event.loadDataCall,
       Event.modelInit orc.nFeatureX orc.nFeatureY] ∧
    ∀ ev ∈ (train orc args).evts.take 3, isOptInit ev = false := by
  obtain ⟨t, ht⟩ := evts_train orc args
  have h3 : (train orc args).evts.take 3 =
      [Event.scDatasetInit (osPathJoin args.data_dir "cite_train_x.h5ad")
                           (osPathJoin args.data_dir "cite_train_y.h5ad")
                           "day" "cell_type",
       Event.loadDataCall,
       Event.modelInit orc.nFeatureX orc.nFeatureY] := by
    rw [ht]
    exact List.take_left' (by simp)
  refine ⟨h3, ?_⟩
  rw [h3]
  intro ev hev
  fin_cases hev <;> rfl

/-- Claim C6: on a successful run the loop executes exactly n_epochs
epochs (one model.train() per epoch), performs one zero_grad, one forward
pass, one loss evaluation, one backward and one optimizer step per
training batch in source order (the per-batch event list batchEvents),
plus one forward pass per validation batch per epoch, and global_step
ends at n_epochs times the number of training batches, having increased
by exactly one per training batch. -/
theorem claim_C6_loop_counts (orc : Oracle) (args : Args) (ln o d : String)
    (ho : optSel args = some o) (hls : lossSel args = some ln)
    (hld : args.log_dir = some d) (ht : 0 < orc.nTrain) (hv : 0 < orc.nVal) :
    (∃ s, train orc args = Outcome.ok s ∧
      s.gs = args.n_epochs * orc.nTrain ∧
      List.countP (fun ev => ev == Event.modelTrainMode) s.events = args.n_epochs ∧
      List.countP (fun ev => ev == Event.zeroGrad) s.events =
        args.n_epochs * orc.nTrain ∧
      List.countP (fun ev => ev == Event.backward) s.events =
        args.n_epochs * orc.nTrain ∧
      List.countP (fun ev => ev == Event.optStep) s.events =
        args.n_epochs * orc.nTrain ∧
      List.countP (fun ev => ev == Event.forward) s.events =
        args.n_epochs * (orc.nTrain + orc.nVal)) ∧
    (∀ (i : Nat) (s₀ : St), ∃ s₁, trainBatch orc args i s₀ = Outcome.ok s₁ ∧
      s₁.events = s₀.events ++ batchEvents orc ln s₀.gs i ∧ s₁.gs = s₀.gs + 1) := by
  obtain ⟨cs, ll, h⟩ := train_ok orc args ln o d ho hls hld ht hv
  constructor
  · refine ⟨_, h, rfl, ?_, ?_, ?_, ?_, ?_⟩
    · show List.countP _ (fullTrace orc args ln) = _
      rw [countP_fullTrace orc args ln _ 0 1 0 ?_ (epochCount_trainMode orc args ln) ?_]
      · ring
      · simp only [preludeTrace, hls, hld, List.countP_append]
        split_ifs <;> simp
      · cases hs : args.save <;> simp
    · show List.countP _ (fullTrace orc args ln) = _
      rw [countP_fullTrace orc args ln _ 0 orc.nTrain 0 ?_ (epochCount_zeroGrad orc args ln) ?_]
      · ring
      · simp only [preludeTrace, hls, hld, List.countP_append]
        split_ifs <;> simp
      · cases hs : args.save <;> simp
    · show List.countP _ (fullTrace orc args ln) = _
      rw [countP_fullTrace orc args ln _ 0 orc.nTrain 0 ?_ (epochCount_backward orc args ln) ?_]
      · ring
      · simp only [preludeTrace, hls, hld, List.countP_append]
        split_ifs <;> simp
      · cases hs : args.save <;> simp
    · show List.countP _ (fullTrace orc args ln) = _
      rw [countP_fullTrace orc args ln _ 0 orc.nTrain 0 ?_ (epochCount_optStep orc args ln) ?_]
      · ring
      · simp only [preludeTrace, hls, hld, List.countP_append]
        split_ifs <;> simp
      · cases hs : args.save <;> simp
    · show List.countP _ (fullTrace orc args ln) = _
      rw [countP_fullTrace orc args ln _ 0 (orc.nTrain + orc.nVal) 0 ?_
          (epochCount_forward orc args ln) ?_]
      · ring
      · simp only [preludeTrace, hls, hld, List.countP_append]
        split_ifs <;> simp
      · cases hs : args.save <;> simp
  · intro i s₀
    exact ⟨_, trainBatch_ok orc args ln o d ho hls hld i s₀, rfl, rfl⟩

/-- Witness for claim C6 at a concrete input. -/
theorem claim_C6_loop_counts_witness :
    (∃ s, train orcW argsW = Outcome.ok s ∧
      s.gs = argsW.n_epochs * orcW.nTrain ∧
      List.countP (fun ev => ev == Event.modelTrainMode) s.events = argsW.n_epochs ∧
      List.countP (fun ev => ev == Event.zeroGrad) s.events =
        argsW.n_epochs * orcW.nTrain ∧
      List.countP (fun ev => ev == Event.backward) s.events =
        argsW.n_epochs * orcW.nTrain ∧
      List.countP (fun ev => ev == Event.optStep) s.events =
        argsW.n_epochs * orcW.nTrain ∧
      List.countP (fun ev => ev == Event.forward) s.events =
        argsW.n_epochs * (orcW.nTrain + orcW.nVal)) ∧
    (∀ (i : Nat) (s₀ : St), ∃ s₁, trainBatch orcW argsW i s₀ = Outcome.ok s₁ ∧
      s₁.events = s₀.events ++ batchEvents orcW "MSELoss" s₀.gs i ∧
      s₁.gs = s₀.gs + 1) :=
  claim_C6_loop_counts orcW argsW "MSELoss" "Adam" "logs"
    (by decide) (by decide) (by decide) (by decide) (by decide)

/-- Claim C7: on a successful run, save_model is called exactly when the
save flag is set, exactly once, and as the very last action after the
whole loop; without the flag no save event occurs anywhere. -/
theorem claim_C7_save_last (orc : Oracle) (args : Args) (ln o d : String)
    (ho : optSel args = some o) (hls : lossSel args = some ln)
    (hld : args.log_dir = some d) (ht : 0 < orc.nTrain) (hv : 0 < orc.nVal) :
    ∃ s, train orc args = Outcome.ok s ∧
      (args.save = true → ∃ t, s.events = t ++ [Event.saveModelCall] ∧
        Event.saveModelCall ∉ t) ∧
      (args.save = false → Event.saveModelCall ∉ s.events) := by
  obtain ⟨cs, ll, h⟩ := train_ok orc args ln o d ho hls hld ht hv
  have hpre : List.countP (fun ev => ev == Event.saveModelCall)
      (preludeTrace orc args) = 0 := by
    simp only [preludeTrace, hls, hld, List.countP_append]
    split_ifs <;> simp
  have h0 : List.countP (fun ev => ev == Event.saveModelCall)
      (preludeTrace orc args ++
       epochsTrace orc args ln (List.range args.n_epochs) 0 []) = 0 := by
    rw [List.countP_append, hpre,
      countP_epochsTrace orc args ln _ 0 (epochCount_save orc args ln)]
    simp
  have hnm : Event.saveModelCall ∉
      preludeTrace orc args ++
      epochsTrace orc args ln (List.range args.n_epochs) 0 [] := by
    intro hmem
    have := List.countP_eq_zero.mp h0 _ hmem
    simp at this
  refine ⟨_, h, ?_, ?_⟩
  · intro hsv
    refine ⟨preludeTrace orc args ++
      epochsTrace orc args ln (List.range args.n_epochs) 0 [], ?_, hnm⟩
    show fullTrace orc args ln = _
    simp [fullTrace, hsv, List.append_assoc]
  · intro hsv
    show Event.saveModelCall ∉ fullTrace orc args ln
    simpa [fullTrace, hsv] using hnm

/-- Witness for claim C7 at concrete inputs. -/
theorem claim_C7_save_last_witness :
    ∃ s, train orcW argsW = Outcome.ok s ∧
      (argsW.save = true → ∃ t, s.events = t ++ [Event.saveModelCall] ∧
        Event.saveModelCall ∉ t) ∧
      (argsW.save = false → Event.saveModelCall ∉ s.events) :=
  claim_C7_save_last orcW argsW "MSELoss" "Adam" "logs"
    (by decide) (by decide) (by decide) (by decide) (by decide)

/-- When schedule_lr is set, an epoch trace ends with the lr scalar and
the scheduler step on the epoch's mean validation correlation, after the
valid corr scalar. -/
theorem epochTraceAt_sched_decomp (orc : Oracle) (args : Args) (ln : String)
    (e gs : Nat) (hist : List ℚ) (hsch : args.schedule_lr = true) :
    ∃ t, epochTraceAt orc args ln e gs hist =
      t ++ [Event.addScalar "train" "lr" (orc.lrOf args.learning_rate hist)
              (gs + orc.nTrain),
            Event.schedStep (epochVC orc gs)] ∧
      Event.addScalar "valid" "corr" (epochVC orc gs) (gs + orc.nTrain) ∈ t := by
  refine ⟨[Event.modelTrainMode] ++ batchesTrace orc ln (List.range orc.nTrain) gs ++
    [Event.addScalar "train" "corr" (epochTC orc gs) (gs + orc.nTrain)] ++
    (if args.verbose then
       (match batchesLast orc ln (List.range orc.nTrain) gs none with
        | some lv => [Event.printTrain e (gs + orc.nTrain) lv (epochTC orc gs)]
        | none => [])
     else []) ++
    ([Event.modelEvalMode, Event.noGradEnter] ++
     valTrace (gs + orc.nTrain) (List.range orc.nVal) ++
     [Event.addScalar "valid" "corr" (epochVC orc gs) (gs + orc.nTrain)] ++
     (if args.verbose then [Event.printVal e (gs + orc.nTrain) (epochVC orc gs)]
      else []) ++
     [Event.noGradExit]), ?_, ?_⟩
  · simp [epochTraceAt, valPhaseTrace, hsch, epochVC, List.append_assoc]
  · simp [epochVC]

/-- Claim C3: a ReduceLROnPlateau scheduler in max mode with patience 5
is created if and only if schedule_lr is set, and it is stepped exactly
once per epoch, after the validation pass, with that epoch's mean
validation correlation (epochVC, i.e. corr_sum over the validation split
divided by its length) as the metric; without the flag no scheduler is
created and no scheduler step ever happens. -/
theorem claim_C3_lr_scheduling (orc : Oracle) (args : Args) (ln o d : String)
    (ho : optSel args = some o) (hls : lossSel args = some ln)
    (hld : args.log_dir = some d) (ht : 0 < orc.nTrain) (hv : 0 < orc.nVal) :
    (∃ s, train orc args = Outcome.ok s ∧
      List.countP isSchedInit s.events = (if args.schedule_lr then 1 else 0) ∧
      (args.schedule_lr = true → Event.schedulerInit "max" 5 ∈ s.events) ∧
      List.countP isSchedStep s.events =
        (if args.schedule_lr then args.n_epochs else 0)) ∧
    (args.schedule_lr = true → ∀ (e : Nat) (s₀ : St),
      ∃ s₁ t, runEpoch orc args e s₀ = Outcome.ok s₁ ∧
        s₁.events = s₀.events ++ t ++
          [Event.addScalar "train" "lr" (orc.lrOf args.learning_rate s₀.schedHist)
             (s₀.gs + orc.nTrain),
           Event.schedStep (epochVC orc s₀.gs)] ∧
        Event.addScalar "valid" "corr" (epochVC orc s₀.gs) (s₀.gs + orc.nTrain) ∈ t) := by
  obtain ⟨cs, ll, h⟩ := train_ok orc args ln o d ho hls hld ht hv
  constructor
  · refine ⟨_, h, ?_, ?_, ?_⟩
    · show List.countP _ (fullTrace orc args ln) = _
      rw [countP_fullTrace orc args ln _ (if args.schedule_lr then 1 else 0) 0 0 ?_
          (epochCount_schedInit orc args ln) ?_]
      · cases hsc : args.schedule_lr <;> simp
      · simp only [preludeTrace, hls, hld, List.countP_append]
        split_ifs <;> simp [isSchedInit]
      · cases hs : args.save <;> simp [isSchedInit]
    · intro hsch
      show Event.schedulerInit "max" 5 ∈ fullTrace orc args ln
      simp [fullTrace, preludeTrace, hsch]
    · show List.countP _ (fullTrace orc args ln) = _
      rw [countP_fullTrace orc args ln _ 0 (if args.schedule_lr then 1 else 0) 0 ?_
          (epochCount_schedStep orc args ln) ?_]
      · cases hsc : args.schedule_lr <;> simp
      · simp only [preludeTrace, hls, hld, List.countP_append]
        split_ifs <;> simp [isSchedStep]
      · cases hs : args.save <;> simp [isSchedStep]
  · intro hsch e s₀
    obtain ⟨t, hdec, hmem⟩ :=
      epochTraceAt_sched_decomp orc args ln e s₀.gs s₀.schedHist hsch
    refine ⟨_, t, runEpoch_ok orc args ln o d ho hls hld ht hv e s₀, ?_, hmem⟩
    show s₀.events ++ epochTraceAt orc args ln e s₀.gs s₀.schedHist = _
    rw [hdec]
    simp [List.append_assoc]

/-- Witness for claim C3 at a concrete input with schedule_lr set,
applying the per-epoch part at a concrete epoch and state. -/
theorem claim_C3_lr_scheduling_witness :
    (∃ s, train orcW argsW = Outcome.ok s ∧
      List.countP isSchedInit s.events = (if argsW.schedule_lr then 1 else 0) ∧
      (argsW.schedule_lr = true → Event.schedulerInit "max" 5 ∈ s.events) ∧
      List.countP isSchedStep s.events =
        (if argsW.schedule_lr then argsW.n_epochs else 0)) ∧
    (∃ s₁ t, runEpoch orcW argsW 0 (⟨[], 0, 0, none, []⟩ : St) = Outcome.ok s₁ ∧
      s₁.events = (⟨[], 0, 0, none, []⟩ : St).events ++ t ++
        [Event.addScalar "train" "lr"
           (orcW.lrOf argsW.learning_rate (⟨[], 0, 0, none, []⟩ : St).schedHist)
           ((⟨[], 0, 0, none, []⟩ : St).gs + orcW.nTrain),
         Event.schedStep (epochVC orcW (⟨[], 0, 0, none, []⟩ : St).gs)] ∧
      Event.addScalar "valid" "corr" (epochVC orcW (⟨[], 0, 0, none, []⟩ : St).gs)
        ((⟨[], 0, 0, none, []⟩ : St).gs + orcW.nTrain) ∈ t) :=
  ⟨(claim_C3_lr_scheduling orcW argsW "MSELoss" "Adam" "logs"
      (by decide) (by decide) (by decide) (by decide) (by decide)).1,
   (claim_C3_lr_scheduling orcW argsW "MSELoss" "Adam" "logs"
      (by decide) (by decide) (by decide) (by decide) (by decide)).2
     rfl 0 (⟨[], 0, 0, none, []⟩ : St)⟩

/-- Per-epoch count of Adam constructions: none. -/
theorem epochCount_adamInit (orc : Oracle) (args : Args) (ln : String)
    (e gs : Nat) (hist : List ℚ) :
    List.countP isAdamInit (epochTraceAt orc args ln e gs hist) = 0 := by
  have hbt := countP_batchesTrace orc ln isAdamInit 0
    (fun gs i => by simp [batchEvents, isAdamInit]) (List.range orc.nTrain) gs
  have hvt := countP_valTrace isAdamInit 0
    (fun gs i => by simp [isAdamInit]) (List.range orc.nVal) (gs + orc.nTrain)
  cases hbl : batchesLast orc ln (List.range orc.nTrain) gs none <;>
    cases hvb : args.verbose <;> cases hsc : args.schedule_lr <;>
      simp [epochTraceAt, valPhaseTrace, List.countP_append, hbt, hvt, isAdamInit,
        List.length_range, hbl, hvb, hsc]

/-- Per-epoch count of SGD constructions: none. -/
theorem epochCount_sgdInit (orc : Oracle) (args : Args) (ln : String)
    (e gs : Nat) (hist : List ℚ) :
    List.countP isSgdInit (epochTraceAt orc args ln e gs hist) = 0 := by
  have hbt := countP_batchesTrace orc ln isSgdInit 0
    (fun gs i => by simp [batchEvents, isSgdInit]) (List.range orc.nTrain) gs
  have hvt := countP_valTrace isSgdInit 0
    (fun gs i => by simp [isSgdInit]) (List.range orc.nVal) (gs + orc.nTrain)
  cases hbl : batchesLast orc ln (List.range orc.nTrain) gs none <;>
    cases hvb : args.verbose <;> cases hsc : args.schedule_lr <;>
      simp [epochTraceAt, valPhaseTrace, List.countP_append, hbt, hvt, isSgdInit,
        List.length_range, hbl, hvb, hsc]

/-- Claim C4: for every accepted loss flag, train constructs exactly the
corresponding loss object (nb to NBLoss, gauss to GaussianNLLLoss, ncorr
to NCorrLoss, mse to MSELoss; it is the only loss constructed), every
loss evaluation in the run is that one loss applied to
(pred_Y_exp, Y_exp) of the current batch (there are n_epochs times
len(train_set) of them and all are well-shaped isLossApp events), and
the optimizer is exactly Adam over model.parameters() with
lr = learning_rate and weight_decay 1e-5 (= 1/100000), or SGD with
momentum 0.9 (= 9/10) and weight_decay 5e-4 (= 1/2000). -/
theorem claim_C4_loss_optimizer_wiring (orc : Oracle) (args : Args) (ln o d : String)
    (ho : optSel args = some o) (hls : lossSel args = some ln)
    (hld : args.log_dir = some d) (ht : 0 < orc.nTrain) (hv : 0 < orc.nVal) :
    ∃ s, train orc args = Outcome.ok s ∧
      (args.loss_ae = "nb" → Event.lossInit "NBLoss" ∈ s.events) ∧
      (args.loss_ae = "gauss" → Event.lossInit "GaussianNLLLoss" ∈ s.events) ∧
      (args.loss_ae = "ncorr" → Event.lossInit "NCorrLoss" ∈ s.events) ∧
      (args.loss_ae = "mse" → Event.lossInit "MSELoss" ∈ s.events) ∧
      List.countP isLossInit s.events = 1 ∧
      List.countP isLossEval s.events = args.n_epochs * orc.nTrain ∧
      List.countP (isLossApp ln) s.events = args.n_epochs * orc.nTrain ∧
      (args.optimizer = "Adam" →
        Event.adamInit args.learning_rate (1/100000) ∈ s.events ∧
        List.countP isAdamInit s.events = 1 ∧
        List.countP isSgdInit s.events = 0) ∧
      (args.optimizer = "SGD" →
        Event.sgdInit args.learning_rate (9/10) (1/2000) ∈ s.events ∧
        List.countP isSgdInit s.events = 1 ∧
        List.countP isAdamInit s.events = 0) := by
  obtain ⟨cs, ll, h⟩ := train_ok orc args ln o d ho hls hld ht hv
  refine ⟨_, h, ?_, ?_, ?_, ?_, ?_, ?_, ?_, ?_, ?_⟩
  · intro hla
    have hln : ln = "NBLoss" :=
      Option.some.inj (hls.symm.trans (by simp [lossSel, hla]))
    show Event.lossInit "NBLoss" ∈ fullTrace orc args ln
    rw [← hln]
    simp [fullTrace, preludeTrace, hls]
  · intro hla
    have hln : ln = "GaussianNLLLoss" :=
      Option.some.inj (hls.symm.trans (by simp [lossSel, hla]))
    show Event.lossInit "GaussianNLLLoss" ∈ fullTrace orc args ln
    rw [← hln]
    simp [fullTrace, preludeTrace, hls]
  · intro hla
    have hln : ln = "NCorrLoss" :=
      Option.some.inj (hls.symm.trans (by simp [lossSel, hla]))
    show Event.lossInit "NCorrLoss" ∈ fullTrace orc args ln
    rw [← hln]
    simp [fullTrace, preludeTrace, hls]
  · intro hla
    have hln : ln = "MSELoss" :=
      Option.some.inj (hls.symm.trans (by simp [lossSel, hla]))
    show Event.lossInit "MSELoss" ∈ fullTrace orc args ln
    rw [← hln]
    simp [fullTrace, preludeTrace, hls]
  · show List.countP _ (fullTrace orc args ln) = _
    rw [countP_fullTrace orc args ln _ 1 0 0 ?_ (epochCount_lossInit orc args ln) ?_]
    · simp
    · simp only [preludeTrace, hls, hld, List.countP_append]
      split_ifs <;> simp [isLossInit]
    · cases hs : args.save <;> simp [isLossInit]
  · show List.countP _ (fullTrace orc args ln) = _
    rw [countP_fullTrace orc args ln _ 0 orc.nTrain 0 ?_ (epochCount_lossEval orc args ln) ?_]
    · ring
    · simp only [preludeTrace, hls, hld, List.countP_append]
      split_ifs <;> simp [isLossEval]
    · cases hs : args.save <;> simp [isLossEval]
  · show List.countP _ (fullTrace orc args ln) = _
    rw [countP_fullTrace orc args ln _ 0 orc.nTrain 0 ?_ (epochCount_lossApp orc args ln) ?_]
    · ring
    · simp only [preludeTrace, hls, hld, List.countP_append]
      split_ifs <;> simp [isLossApp]
    · cases hs : args.save <;> simp [isLossApp]
  · intro hA
    refine ⟨?_, ?_, ?_⟩
    · show Event.adamInit args.learning_rate (1/100000) ∈ fullTrace orc args ln
      simp [fullTrace, preludeTrace, hA]
    · show List.countP _ (fullTrace orc args ln) = _
      rw [countP_fullTrace orc args ln _ 1 0 0 ?_ (epochCount_adamInit orc args ln) ?_]
      · simp
      · simp only [preludeTrace, hls, hld, List.countP_append]
        split_ifs <;> simp_all [isAdamInit]
      · cases hs : args.save <;> simp [isAdamInit]
    · show List.countP _ (fullTrace orc args ln) = _
      rw [countP_fullTrace orc args ln _ 0 0 0 ?_ (epochCount_sgdInit orc args ln) ?_]
      · simp
      · simp only [preludeTrace, hls, hld, List.countP_append]
        split_ifs <;> simp_all [isSgdInit]
      · cases hs : args.save <;> simp [isSgdInit]
  · intro hS
    have hA : ¬ args.optimizer = "Adam" := by
      intro hx; rw [hx] at hS; exact absurd hS (by decide)
    refine ⟨?_, ?_, ?_⟩
    · show Event.sgdInit args.learning_rate (9/10) (1/2000) ∈ fullTrace orc args ln
      simp [fullTrace, preludeTrace, hS, hA]
    · show List.countP _ (fullTrace orc args ln) = _
      rw [countP_fullTrace orc args ln _ 1 0 0 ?_ (epochCount_sgdInit orc args ln) ?_]
      · simp
      · simp only [preludeTrace, hls, hld, List.countP_append]
        split_ifs <;> simp_all [isSgdInit]
      · cases hs : args.save <;> simp [isSgdInit]
    · show List.countP _ (fullTrace orc args ln) = _
      rw [countP_fullTrace orc args ln _ 0 0 0 ?_ (epochCount_adamInit orc args ln) ?_]
      · simp
      · simp only [preludeTrace, hls, hld, List.countP_append]
        split_ifs <;> simp_all [isAdamInit]
      · cases hs : args.save <;> simp [isAdamInit]

/-- Witness for claim C4 at a concrete input. -/
theorem claim_C4_loss_optimizer_wiring_witness :
    ∃ s, train orcW argsW = Outcome.ok s ∧
      (argsW.loss_ae = "nb" → Event.lossInit "NBLoss" ∈ s.events) ∧
      (argsW.loss_ae = "gauss" → Event.lossInit "GaussianNLLLoss" ∈ s.events) ∧
      (argsW.loss_ae = "ncorr" → Event.lossInit "NCorrLoss" ∈ s.events) ∧
      (argsW.loss_ae = "mse" → Event.lossInit "MSELoss" ∈ s.events) ∧
      List.countP isLossInit s.events = 1 ∧
      List.countP isLossEval s.events = argsW.n_epochs * orcW.nTrain ∧
      List.countP (isLossApp "MSELoss") s.events = argsW.n_epochs * orcW.nTrain ∧
      (argsW.optimizer = "Adam" →
        Event.adamInit argsW.learning_rate (1/100000) ∈ s.events ∧
        List.countP isAdamInit s.events = 1 ∧
        List.countP isSgdInit s.events = 0) ∧
      (argsW.optimizer = "SGD" →
        Event.sgdInit argsW.learning_rate (9/10) (1/2000) ∈ s.events ∧
        List.countP isSgdInit s.events = 1 ∧
        List.countP isAdamInit s.events = 0) :=
  claim_C4_loss_optimizer_wiring orcW argsW "MSELoss" "Adam" "logs"
    (by decide) (by decide) (by decide) (by decide) (by decide)

/-- Claim C8: within an epoch corr_sum starts at 0 and each training
batch adds corr_score(Y_exp, pred_Y_exp) (the running sum over a batch
list is batchesCorr); the epoch logs to the train logger the value
epochTC (that sum divided by len(train_set)) and to the valid logger the
value epochVC (the validation sum divided by len(val_set)); and when
schedule_lr is set the very value epochVC is the metric fed to
scheduler.step. -/
theorem claim_C8_corr_mean (orc : Oracle) (args : Args) (ln o d : String)
    (ho : optSel args = some o) (hls : lossSel args = some ln)
    (hld : args.log_dir = some d) (ht : 0 < orc.nTrain) (hv : 0 < orc.nVal) :
    (∀ (is : List Nat) (s : St), ∃ s', runBatches orc args is s = Outcome.ok s' ∧
      s'.corr_sum = s.corr_sum + batchesCorr orc is s.gs) ∧
    (∀ (e : Nat) (s₀ : St), ∃ s₁, runEpoch orc args e s₀ = Outcome.ok s₁ ∧
      s₁.events = s₀.events ++ epochTraceAt orc args ln e s₀.gs s₀.schedHist ∧
      Event.addScalar "train" "corr" (epochTC orc s₀.gs) (s₀.gs + orc.nTrain) ∈
        s₁.events ∧
      Event.addScalar "valid" "corr" (epochVC orc s₀.gs) (s₀.gs + orc.nTrain) ∈
        s₁.events ∧
      s₁.corr_sum = valCorr orc (s₀.gs + orc.nTrain) (List.range orc.nVal) ∧
      (args.schedule_lr = true → Event.schedStep (epochVC orc s₀.gs) ∈ s₁.events)) := by
  constructor
  · intro is s
    exact ⟨_, runBatches_ok orc args ln o d ho hls hld is s, rfl⟩
  · intro e s₀
    refine ⟨_, runEpoch_ok orc args ln o d ho hls hld ht hv e s₀, rfl, ?_, ?_, rfl, ?_⟩
    · show Event.addScalar "train" "corr" (epochTC orc s₀.gs) (s₀.gs + orc.nTrain) ∈
        s₀.events ++ epochTraceAt orc args ln e s₀.gs s₀.schedHist
      simp [epochTraceAt]
    · show Event.addScalar "valid" "corr" (epochVC orc s₀.gs) (s₀.gs + orc.nTrain) ∈
        s₀.events ++ epochTraceAt orc args ln e s₀.gs s₀.schedHist
      simp [epochTraceAt, valPhaseTrace, epochVC]
    · intro hsch
      show Event.schedStep (epochVC orc s₀.gs) ∈
        s₀.events ++ epochTraceAt orc args ln e s₀.gs s₀.schedHist
      simp [epochTraceAt, valPhaseTrace, hsch, epochVC]

/-- Witness for claim C8 at a concrete input. -/
theorem claim_C8_corr_mean_witness :
    (∀ (is : List Nat) (s : St), ∃ s', runBatches orcW argsW is s = Outcome.ok s' ∧
      s'.corr_sum = s.corr_sum + batchesCorr orcW is s.gs) ∧
    (∀ (e : Nat) (s₀ : St), ∃ s₁, runEpoch orcW argsW e s₀ = Outcome.ok s₁ ∧
      s₁.events = s₀.events ++ epochTraceAt orcW argsW "MSELoss" e s₀.gs s₀.schedHist ∧
      Event.addScalar "train" "corr" (epochTC orcW s₀.gs) (s₀.gs + orcW.nTrain) ∈
        s₁.events ∧
      Event.addScalar "valid" "corr" (epochVC orcW s₀.gs) (s₀.gs + orcW.nTrain) ∈
        s₁.events ∧
      s₁.corr_sum = valCorr orcW (s₀.gs + orcW.nTrain) (List.range orcW.nVal) ∧
      (argsW.schedule_lr = true → Event.schedStep (epochVC orcW s₀.gs) ∈ s₁.events)) :=
  claim_C8_corr_mean orcW argsW "MSELoss" "Adam" "logs"
    (by decide) (by decide) (by decide) (by decide) (by decide)

/-- Optimizer selection ignores batch_size. -/
theorem optSel_congr (a b : Args) (h : AgreeNonBS a b) : optSel a = optSel b := by
  simp only [optSel, h.2.2.2.1]

/-- Loss selection ignores batch_size. -/
theorem lossSel_congr (a b : Args) (h : AgreeNonBS a b) : lossSel a = lossSel b := by
  simp only [lossSel, h.2.2.1]

/-- A training batch ignores batch_size. -/
theorem trainBatch_congr (orc : Oracle) (a b : Args) (h : AgreeNonBS a b) :
    trainBatch orc a = trainBatch orc b := by
  funext i s
  simp only [trainBatch, optSel_congr a b h, lossSel_congr a b h, h.2.1]

/-- The training loop ignores batch_size. -/
theorem runBatches_congr (orc : Oracle) (a b : Args) (h : AgreeNonBS a b) :
    runBatches orc a = runBatches orc b := by
  funext is
  induction is with
  | nil => funext s; rfl
  | cons i rest ih =>
    funext s
    simp only [runBatches, trainBatch_congr orc a b h, ih]

/-- The validation phase ignores batch_size. -/
theorem epochValPhase_congr (orc : Oracle) (a b : Args) (h : AgreeNonBS a b) :
    epochValPhase orc a = epochValPhase orc b := by
  funext e s
  simp only [epochValPhase, h.2.1, h.2.2.2.2.1, h.2.2.2.2.2.1, h.2.2.2.2.2.2.2.1]

/-- One epoch ignores batch_size. -/
theorem runEpoch_congr (orc : Oracle) (a b : Args) (h : AgreeNonBS a b) :
    runEpoch orc a = runEpoch orc b := by
  funext e s
  simp only [runEpoch, runBatches_congr orc a b h, epochValPhase_congr orc a b h,
    h.2.1, h.2.2.2.2.2.2.2.1]

/-- The epoch loop ignores batch_size. -/
theorem runEpochs_congr (orc : Oracle) (a b : Args) (h : AgreeNonBS a b) :
    runEpochs orc a = runEpochs orc b := by
  funext es
  induction es with
  | nil => funext s; rfl
  | cons e rest ih =>
    funext s
    simp only [runEpochs, runEpoch_congr orc a b h, ih]

/-- The tail of train ignores batch_size. -/
theorem trainRest_congr (orc : Oracle) (a b : Args) (h : AgreeNonBS a b) :
    trainRest orc a = trainRest orc b := by
  funext s
  simp only [trainRest, lossSel_congr a b h, h.2.1, runEpochs_congr orc a b h,
    h.2.2.2.2.2.2.1, h.2.2.2.2.2.2.2.2]

/-- Claim C9: the batch_size flag has no effect on the behaviour of
train: two argument records that agree on every field except batch_size
produce literally the same outcome (same events in the same order, same
final state, same error if any), for every oracle. -/
theorem claim_C9_batch_size_noninterference (orc : Oracle) (a b : Args)
    (h : AgreeNonBS a b) : train orc a = train orc b := by
  simp only [train, h.1, h.2.2.2.1, h.2.2.2.2.1, h.2.2.2.2.2.1,
    optSel_congr a b h, trainRest_congr orc a b h]

/-- Witness for claim C9: two records differing only in batch_size. -/
theorem claim_C9_batch_size_noninterference_witness :
    train orcW argsW = train orcW { argsW with batch_size := 1024 } :=
  claim_C9_batch_size_noninterference orcW argsW
    { argsW with batch_size := 1024 } ⟨rfl, rfl, rfl, rfl, rfl, rfl, rfl, rfl, rfl⟩

/-- Every event of the validation loop is a forward pass or a corr_score
call. -/
theorem valTrace_mem (gs : Nat) :
    ∀ (is : List Nat) (ev : Event), ev ∈ valTrace gs is →
      ev = Event.forward ∨ ∃ a b, ev = Event.corrCall a b := by
  intro is
  induction is with
  | nil => intro ev hev; simp [valTrace] at hev
  | cons i rest ih =>
    intro ev hev
    simp only [valTrace, List.cons_append, List.nil_append, List.mem_cons] at hev
    rcases hev with h | h | h
    · exact Or.inl h
    · exact Or.inr ⟨_, _, h⟩
    · exact ih ev h

/-- The no_grad section of an epoch trace: everything between noGradEnter
and noGradExit is a forward pass, a corr_score call, the one valid corr
scalar, or the optional verbose print. -/
theorem epochTraceAt_nograd_decomp (orc : Oracle) (args : Args) (ln : String)
    (e gs : Nat) (hist : List ℚ) :
    ∃ t₁ t₂ t₃, epochTraceAt orc args ln e gs hist =
      t₁ ++ [Event.noGradEnter] ++ t₂ ++ [Event.noGradExit] ++ t₃ ∧
      (∀ ev ∈ t₂, ev = Event.forward ∨ (∃ a b, ev = Event.corrCall a b) ∨
        (∃ v g, ev = Event.addScalar "valid" "corr" v g) ∨
        (∃ ep g v, ev = Event.printVal ep g v)) := by
  refine ⟨[Event.modelTrainMode] ++ batchesTrace orc ln (List.range orc.nTrain) gs ++
    [Event.addScalar "train" "corr" (epochTC orc gs) (gs + orc.nTrain)] ++
    (if args.verbose then
       (match batchesLast orc ln (List.range orc.nTrain) gs none with
        | some lv => [Event.printTrain e (gs + orc.nTrain) lv (epochTC orc gs)]
        | none => [])
     else []) ++ [Event.modelEvalMode],
    valTrace (gs + orc.nTrain) (List.range orc.nVal) ++
      [Event.addScalar "valid" "corr" (epochVC orc gs) (gs + orc.nTrain)] ++
      (if args.verbose then [Event.printVal e (gs + orc.nTrain) (epochVC orc gs)]
       else []),
    (if args.schedule_lr then
       [Event.addScalar "train" "lr" (orc.lrOf args.learning_rate hist)
          (gs + orc.nTrain),
        Event.schedStep (epochVC orc gs)]
     else []), ?_, ?_⟩
  · simp [epochTraceAt, valPhaseTrace, epochVC, List.append_assoc]
  · intro ev hev
    simp only [List.append_assoc, List.mem_append] at hev
    rcases hev with h | h | h
    · rcases valTrace_mem (gs + orc.nTrain) (List.range orc.nVal) ev h with h' | h'
      · exact Or.inl h'
      · exact Or.inr (Or.inl h')
    · simp only [List.mem_singleton] at h
      exact Or.inr (Or.inr (Or.inl ⟨_, _, h⟩))
    · rcases hvb : args.verbose with hf | htr
      · rw [hvb] at h; simp at h
      · rw [hvb] at h
        simp only [if_true, List.mem_singleton] at h
        exact Or.inr (Or.inr (Or.inr ⟨_, _, _, h⟩))

/-- Claim C10: the validation pass is a frame: the validation loop leaves
global_step (hence the model parameter version), the last bound loss and
the scheduler history untouched, changes only corr_sum (by the
accumulated corr_score values) and the trace (by forward/corr events
only); and in a full epoch everything between entering and leaving the
no_grad block is a forward pass, a corr_score call, the valid logger's
corr scalar, or the verbose print: no backward, no optimizer step, no
zero_grad, no train-logger write. -/
theorem claim_C10_validation_frame (orc : Oracle) :
    (∀ (is : List Nat) (s : St),
      (runVal orc is s).gs = s.gs ∧
      (runVal orc is s).lastLoss = s.lastLoss ∧
      (runVal orc is s).schedHist = s.schedHist ∧
      (runVal orc is s).corr_sum = s.corr_sum + valCorr orc s.gs is ∧
      (runVal orc is s).events = s.events ++ valTrace s.gs is ∧
      (∀ ev ∈ valTrace s.gs is,
        ev = Event.forward ∨ ∃ a b, ev = Event.corrCall a b)) ∧
    (∀ (args : Args) (ln o d : String), optSel args = some o →
      lossSel args = some ln → args.log_dir = some d →
      0 < orc.nTrain → 0 < orc.nVal → ∀ (e : Nat) (s₀ : St),
      ∃ s₁ t₁ t₂ t₃, runEpoch orc args e s₀ = Outcome.ok s₁ ∧
        s₁.events = s₀.events ++
          (t₁ ++ [Event.noGradEnter] ++ t₂ ++ [Event.noGradExit] ++ t₃) ∧
        (∀ ev ∈ t₂, ev = Event.forward ∨ (∃ a b, ev = Event.corrCall a b) ∨
          (∃ v g, ev = Event.addScalar "valid" "corr" v g) ∨
          (∃ ep g v, ev = Event.printVal ep g v))) := by
  constructor
  · intro is s
    rw [runVal_spec orc is s]
    exact ⟨rfl, rfl, rfl, rfl, rfl, valTrace_mem s.gs is⟩
  · intro args ln o d ho hls hld ht hv e s₀
    obtain ⟨t₁, t₂, t₃, hdec, hmem⟩ :=
      epochTraceAt_nograd_decomp orc args ln e s₀.gs s₀.schedHist
    refine ⟨_, t₁, t₂, t₃, runEpoch_ok orc args ln o d ho hls hld ht hv e s₀, ?_, hmem⟩
    show s₀.events ++ epochTraceAt orc args ln e s₀.gs s₀.schedHist = _
    rw [hdec]

/-- Witness for claim C10, applying the frame statement at a concrete
run of the validation loop and a concrete epoch. -/
theorem claim_C10_validation_frame_witness :
    ((runVal orcW [0] (⟨[], 3, 0, none, []⟩ : St)).gs = (⟨[], 3, 0, none, []⟩ : St).gs ∧
      (runVal orcW [0] (⟨[], 3, 0, none, []⟩ : St)).lastLoss =
        (⟨[], 3, 0, none, []⟩ : St).lastLoss ∧
      (runVal orcW [0] (⟨[], 3, 0, none, []⟩ : St)).schedHist =
        (⟨[], 3, 0, none, []⟩ : St).schedHist ∧
      (runVal orcW [0] (⟨[], 3, 0, none, []⟩ : St)).corr_sum =
        (⟨[], 3, 0, none, []⟩ : St).corr_sum +
          valCorr orcW (⟨[], 3, 0, none, []⟩ : St).gs [0] ∧
      (runVal orcW [0] (⟨[], 3, 0, none, []⟩ : St)).events =
        (⟨[], 3, 0, none, []⟩ : St).events ++
          valTrace (⟨[], 3, 0, none, []⟩ : St).gs [0] ∧
      (∀ ev ∈ valTrace (⟨[], 3, 0, none, []⟩ : St).gs [0],
        ev = Event.forward ∨ ∃ a b, ev = Event.corrCall a b)) ∧
    (∃ s₁ t₁ t₂ t₃, runEpoch orcW argsW 0 (⟨[], 0, 0, none, []⟩ : St) = Outcome.ok s₁ ∧
      s₁.events = (⟨[], 0, 0, none, []⟩ : St).events ++
        (t₁ ++ [Event.noGradEnter] ++ t₂ ++ [Event.noGradExit] ++ t₃) ∧
      (∀ ev ∈ t₂, ev = Event.forward ∨ (∃ a b, ev = Event.corrCall a b) ∨
        (∃ v g, ev = Event.addScalar "valid" "corr" v g) ∨
        (∃ ep g v, ev = Event.printVal ep g v))) :=
  ⟨(claim_C10_validation_frame orcW).1 [0] (⟨[], 3, 0, none, []⟩ : St),
   (claim_C10_validation_frame orcW).2 argsW "MSELoss" "Adam" "logs"
     (by decide) (by decide) (by decide) (by decide) (by decide)
     0 (⟨[], 0, 0, none, []⟩ : St)⟩

/-- Witness for claim C5 at a concrete input. -/
theorem claim_C5_dataset_first_witness :
    (train orcW argsW).evts.take 3 =
      [Event.scDatasetInit (osPathJoin argsW.data_dir "cite_train_x.h5ad")
                           (osPathJoin argsW.data_dir "cite_train_y.h5ad")
                           "day" "cell_type",
       Event.loadDataCall,
       Event.modelInit orcW.nFeatureX orcW.nFeatureY] ∧
    ∀ ev ∈ (train orcW argsW).evts.take 3, isOptInit ev = false :=
  claim_C5_dataset_first orcW argsW
